import Mathlib

/-
Verification of the ODPC-CHECKER repository (src/odpc_checker.py).

The Python program is a small pipeline: scrape an HTML table from the ODPC
website into a pandas DataFrame, read a user-supplied spreadsheet, normalize
provider names on both sides (strip whitespace, then lowercase or uppercase),
left-join the two tables on the normalized names, attach a "Matched Name"
column, and project a fixed list of output columns.

This file gives a shallow embedding of that pipeline:
 - strings are Lean strings; Python str.strip / str.lower / str.upper are
   modelled on the character list underlying a string (ASCII case mapping);
 - pandas DataFrames are modelled as a list of column names plus a list of
   rows, each row a positional list of cells; a cell is either a string or
   the missing value NaN;
 - the scraper is modelled as a function from the outcome of the network
   fetch (an exception, or a parsed page with an optional first table) to a
   DataFrame, mirroring the try/except structure of scrape_odpc_data;
 - the body of main() after the spreadsheet has been read is modelled as
   runChecker, a function from the case option, the uploaded DataFrame and
   the fetch outcome to an explicit result value (one constructor per early
   return of main, plus one for the successfully produced result table).
-/

/-! ### Python string primitives

Model of Python str.strip / str.lower / str.upper on ASCII text, as used by
odpc_checker.py lines 32, 40, 80, 88-95, 108, 116-123. -/

/-- Whitespace test used by the model of Python str.strip: ASCII space, tab,
newline, carriage return, vertical tab and form feed. -/
def isSpaceChar (c : Char) : Bool :=
  c.toNat == 32 || c.toNat == 9 || c.toNat == 10 || c.toNat == 13 ||
    c.toNat == 11 || c.toNat == 12

/-- Remove leading and trailing whitespace from a character list: the model of
Python str.strip on the underlying characters. -/
def stripL (l : List Char) : List Char :=
  ((l.dropWhile isSpaceChar).reverse.dropWhile isSpaceChar).reverse

/-- Model of Python str.strip. -/
def pyStrip (s : String) : String :=
  ⟨stripL s.data⟩

/-- ASCII lowercase mapping on one character (model of Python str.lower,
restricted to ASCII). -/
def toLowerChar (c : Char) : Char :=
  if 65 ≤ c.toNat ∧ c.toNat ≤ 90 then Char.ofNat (c.toNat + 32) else c

/-- ASCII uppercase mapping on one character (model of Python str.upper,
restricted to ASCII). -/
def toUpperChar (c : Char) : Char :=
  if 97 ≤ c.toNat ∧ c.toNat ≤ 122 then Char.ofNat (c.toNat - 32) else c

/-- Model of Python str.lower. -/
def pyLower (s : String) : String :=
  ⟨s.data.map toLowerChar⟩

/-- Model of Python str.upper. -/
def pyUpper (s : String) : String :=
  ⟨s.data.map toUpperChar⟩

/-- The radio-button choice of main(): normalize provider names to lowercase
or to uppercase. -/
inductive CaseOption where
  | lowercase
  | uppercase
deriving DecidableEq

/-- Normalization applied to a name by main() (lines 88-95 and 116-123):
strip surrounding whitespace, then apply the selected case transform. -/
def normalizeName : CaseOption → String → String
  | CaseOption.lowercase, s => pyLower (pyStrip s)
  | CaseOption.uppercase, s => pyUpper (pyStrip s)

/-! ### pandas data model

A DataFrame is a list of column names plus a list of rows; each row is a
positional list of cells aligned with the column list. A cell is a string or
the missing value NaN. -/

/-- One DataFrame cell: a string, or the missing value NaN (also used for
Python None stored in a frame). -/
inductive PdVal where
  | str (s : String)
  | na
deriving DecidableEq

/-- Model of a pandas DataFrame: named columns and positional rows. -/
structure DataFrame where
  cols : List String
  rows : List (List PdVal)
deriving DecidableEq

/-- Model of pd.DataFrame(): no columns, no rows. -/
def DataFrame.empty : DataFrame :=
  ⟨[], []⟩

/-- Model of the pandas DataFrame.empty property: true when either axis has
length zero. -/
def DataFrame.isEmpty (df : DataFrame) : Bool :=
  df.rows.isEmpty || df.cols.isEmpty

/-- Value of column c in row r of df: the cell at the first index whose column
name is c, or none when df has no column c. -/
def getCell (df : DataFrame) (r : List PdVal) (c : String) : Option PdVal :=
  match df.cols.findIdx? (fun k => k == c) with
  | some i => r.get? i
  | none => none

/-- Model of astype(str) on one cell: NaN prints as the string "nan". -/
def pyAstypeStr (v : PdVal) : String :=
  match v with
  | PdVal.str s => s
  | PdVal.na => "nan"

/-- Model of df.columns = df.columns.str.strip() (lines 80 and 108). -/
def stripColsDF (df : DataFrame) : DataFrame :=
  ⟨df.cols.map pyStrip, df.rows⟩

/-- Model of column assignment df[c] = vals: overwrite the column in place
when it exists, otherwise append it on the right. -/
def setCol (df : DataFrame) (c : String) (vals : List PdVal) : DataFrame :=
  match df.cols.findIdx? (fun k => k == c) with
  | some i => ⟨df.cols, (df.rows.zip vals).map (fun rv => rv.1.set i rv.2)⟩
  | none => ⟨df.cols ++ [c], (df.rows.zip vals).map (fun rv => rv.1 ++ [rv.2])⟩

/-- Model of df[cols]: keep the named columns, in the given order
(line 154). -/
def projectDF (df : DataFrame) (cols : List String) : DataFrame :=
  ⟨cols, df.rows.map (fun r => cols.map (fun c => (getCell df r c).getD PdVal.na))⟩

/-! ### The scraper (scrape_odpc_data, lines 19-47) -/

/-- Insertion into a Python dict represented as parallel key/value lists:
an existing key keeps its position and gets the new value, a new key is
appended on the right. -/
def dictInsert (ks : List String) (vs : List PdVal) (k : String) (v : PdVal) :
    List String × List PdVal :=
  match ks.findIdx? (fun x => x == k) with
  | some i => (ks, vs.set i v)
  | none => (ks ++ [k], vs ++ [v])

/-- Model of a Python dict comprehension over a list of key/value pairs:
keys in first-seen order, the last value for a repeated key wins. -/
def pyDict (pairs : List (String × PdVal)) : List String × List PdVal :=
  pairs.foldl (fun acc p => dictInsert acc.1 acc.2 p.1 p.2) ([], [])

/-- Model of pd.DataFrame(rows) for a list of dicts (line 43): columns are
the dict keys in first-seen order; a dict without some column yields NaN. -/
def dfOfDicts (ds : List (List String × List PdVal)) : DataFrame :=
  let cols := ds.foldl (fun acc d => acc ++ d.1.filter (fun k => !acc.contains k)) []
  ⟨cols, ds.map (fun d => cols.map (fun c => ((d.1.zip d.2).lookup c).getD PdVal.na))⟩

/-- The first HTML table of the fetched page, as seen by BeautifulSoup: the
text of the th cells, and for every tr after the first the text of its td
cells. -/
structure HtmlTable where
  headerCells : List String
  bodyRows : List (List String)
deriving DecidableEq

/-- Model of the table-parsing loop of scrape_odpc_data (lines 32-43):
header texts are stripped; a body row is kept only when its cell count
equals the header count; a kept row becomes the dict mapping header i to
the stripped text of cell i. -/
def scrapeTable (t : HtmlTable) : DataFrame :=
  let headers := t.headerCells.map pyStrip
  let kept := t.bodyRows.filter (fun cells => cells.length == headers.length)
  dfOfDicts (kept.map (fun cells =>
    pyDict (headers.zip (cells.map (fun s => PdVal.str (pyStrip s))))))

/-- Outcome of the fetch attempted inside the try block of scrape_odpc_data:
an exception from requests.get or raise_for_status, an exception while
parsing the body, or a parsed page with its first table (none when the page
has no table). -/
inductive FetchOutcome where
  | requestError (msg : String)
  | parseError (msg : String)
  | page (table : Option HtmlTable)
deriving DecidableEq

/-- Model of scrape_odpc_data (lines 19-47): every exception is caught and
turned into an empty DataFrame; a page without a table also yields an empty
DataFrame; otherwise the parsed table. -/
def scrape_odpc_data : FetchOutcome → DataFrame
  | FetchOutcome.requestError _ => DataFrame.empty
  | FetchOutcome.parseError _ => DataFrame.empty
  | FetchOutcome.page none => DataFrame.empty
  | FetchOutcome.page (some t) => scrapeTable t

/-! ### The checker (main, lines 80-154) -/

/-- Result of one run of the checker body of main(), one constructor per
early return plus the successfully produced result table. -/
inductive AppResult where
  | schemaErrorUser (found : List String)
  | emptyFetch
  | schemaErrorRef (found : List String)
  | success (out : DataFrame)
deriving DecidableEq

/-- True exactly on the missing-Provider-Name early return. -/
def AppResult.isSchemaErrorUser : AppResult → Bool
  | AppResult.schemaErrorUser _ => true
  | _ => false

/-- True exactly on the missing-NAME early return. -/
def AppResult.isSchemaErrorRef : AppResult → Bool
  | AppResult.schemaErrorRef _ => true
  | _ => false

/-- Rows of the produced result table; an aborted run produces no rows. -/
def resultRows : AppResult → List (List PdVal)
  | AppResult.success out => out.rows
  | _ => []

/-- The fixed desired-output column list of main() (lines 140-148). -/
def desiredColumns : List String :=
  ["Provider Name", "Matched Name", "TYPE", "CURRENT STATE",
    "REGISTRATION NUMBER", "COUNTY", "COUNTRY"]

/-- Normalization of one cell as main() applies it to a name column:
astype(str), strip, then the selected case transform. -/
def normCell (co : CaseOption) (v : PdVal) : String :=
  normalizeName co (pyAstypeStr v)

/-- The user DataFrame after column stripping and the provider_normalized
assignment (lines 80 and 88-95). -/
def userNormalized (co : CaseOption) (df0 : DataFrame) : DataFrame :=
  setCol (stripColsDF df0) "provider_normalized"
    ((stripColsDF df0).rows.map (fun r =>
      PdVal.str (normCell co ((getCell (stripColsDF df0) r "Provider Name").getD PdVal.na))))

/-- The scraped DataFrame after column stripping and the odpc_normalized
assignment (lines 108 and 116-123). -/
def refNormalized (co : CaseOption) (odpc0 : DataFrame) : DataFrame :=
  setCol (stripColsDF odpc0) "odpc_normalized"
    ((stripColsDF odpc0).rows.map (fun r =>
      PdVal.str (normCell co ((getCell (stripColsDF odpc0) r "NAME").getD PdVal.na))))

/-- The right-side rows whose key column kR equals the key column kL of the
left row l. -/
def matchesOf (dfL dfR : DataFrame) (kL kR : String) (l : List PdVal) :
    List (List PdVal) :=
  dfR.rows.filter (fun r => decide (getCell dfR r kR = getCell dfL l kL))

/-- Model of pd.merge(dfL, dfR, left_on, right_on, how="left") (lines
128-134): every left row is emitted once per matching right row, or once
with NaN right cells when nothing matches; column names occurring on both
sides get the pandas _x / _y suffixes. -/
def leftMerge (dfL dfR : DataFrame) (kL kR : String) : DataFrame :=
  let colsL := dfL.cols.map (fun c => if dfR.cols.contains c then c ++ "_x" else c)
  let colsR := dfR.cols.map (fun c => if dfL.cols.contains c then c ++ "_y" else c)
  ⟨colsL ++ colsR,
    dfL.rows.flatMap (fun l =>
      match matchesOf dfL dfR kL kR l with
      | [] => [l ++ List.replicate dfR.cols.length PdVal.na]
      | ms => ms.map (fun r => l ++ r))⟩

/-- The merge of line 128-134: left-join of the normalized user DataFrame
with the normalized scraped DataFrame on the two normalized-name columns. -/
def mergedDF (co : CaseOption) (df0 odpc0 : DataFrame) : DataFrame :=
  leftMerge (userNormalized co df0) (refNormalized co odpc0)
    "provider_normalized" "odpc_normalized"

/-- The merged DataFrame after the Matched Name assignment of line 137:
merged_df.get("NAME", None) is the NAME column when present, and the
missing value otherwise. -/
def matchedDF (co : CaseOption) (df0 odpc0 : DataFrame) : DataFrame :=
  setCol (mergedDF co df0 odpc0) "Matched Name"
    ((mergedDF co df0 odpc0).rows.map (fun r =>
      (getCell (mergedDF co df0 odpc0) r "NAME").getD PdVal.na))

/-- The body of main() from line 80 on, given the case option, the
successfully read user DataFrame, and the outcome of the fetch: strip user
columns, require "Provider Name", normalize, scrape, require a non-empty
scrape, strip scraped columns, require "NAME", normalize, left-merge on the
normalized names, attach "Matched Name" from the merged NAME column, and
project the available desired columns. -/
def runChecker (co : CaseOption) (df0 : DataFrame) (fetch : FetchOutcome) :
    AppResult :=
  if "Provider Name" ∈ (stripColsDF df0).cols then
    if (scrape_odpc_data fetch).isEmpty then AppResult.emptyFetch
    else if "NAME" ∈ (stripColsDF (scrape_odpc_data fetch)).cols then
      AppResult.success
        (projectDF (matchedDF co df0 (scrape_odpc_data fetch))
          (desiredColumns.filter (fun c =>
            (matchedDF co df0 (scrape_odpc_data fetch)).cols.contains c)))
    else AppResult.schemaErrorRef (stripColsDF (scrape_odpc_data fetch)).cols
  else AppResult.schemaErrorUser (stripColsDF df0).cols

/-! ### A schematic family of inputs used to state the join claims

A user spreadsheet holding exactly the required "Provider Name" column and a
scraped table holding exactly the "NAME" column, with arbitrary entries. -/

/-- User DataFrame with one "Provider Name" column and the given entries. -/
def userDfOf (ps : List String) : DataFrame :=
  ⟨["Provider Name"], ps.map (fun p => [PdVal.str p])⟩

/-- Scraped table with one NAME header and one cell per body row. -/
def tableOf (ns : List String) : HtmlTable :=
  ⟨["NAME"], ns.map (fun n => [n])⟩

/-- The DataFrame the scraper produces from tableOf ns when ns is nonempty:
one NAME column whose cells are the stripped entries. -/
def refDfOf (ns : List String) : DataFrame :=
  ⟨["NAME"], ns.map (fun n => [PdVal.str (pyStrip n)])⟩

/-- The output rows the checker produces for one provider entry p against
reference entries ns: one row per reference entry whose normalized name
equals the normalized provider name (carrying the stripped reference name as
Matched Name), or a single row with NaN Matched Name when nothing matches. -/
def rowsForProvider (co : CaseOption) (ns : List String) (p : String) :
    List (List PdVal) :=
  let ms := ns.filter (fun n => normalizeName co n == normalizeName co p)
  if ms.isEmpty then [[PdVal.str p, PdVal.na]]
  else ms.map (fun n => [PdVal.str p, PdVal.str (pyStrip n)])

/-- All output rows of the checker on the schematic family: the per-provider
rows, concatenated in user order. -/
def matchOutputRows (co : CaseOption) (ps ns : List String) : List (List PdVal) :=
  ps.flatMap (rowsForProvider co ns)

/-! ### Row blocks of the checker on arbitrary datasets

These definitions name, for an arbitrary uploaded DataFrame joined against an
arbitrary scraped reference DataFrame (any columns, as long as none collide
across the two sides), the intermediate frames the checker builds; they are
proved below to agree with runChecker. -/

/-- Lookup of column c in a row, given the column list: the cell at the
first index whose column name is c (getCell df r c = lookupRow df.cols r c). -/
def lookupRow (cols : List String) (row : List PdVal) (c : String) : Option PdVal :=
  match cols.findIdx? (fun k => k == c) with
  | some i => row.get? i
  | none => none

/-- The normalized join key main() computes for one user row (lines 88-95):
astype(str) of the Provider Name cell, stripped, case-transformed. -/
def userKeyCell (co : CaseOption) (df0 : DataFrame) (r : List PdVal) : String :=
  normCell co ((getCell (stripColsDF df0) r "Provider Name").getD PdVal.na)

/-- The normalized join key main() computes for one reference row (lines
116-123): astype(str) of the NAME cell, stripped, case-transformed. -/
def refKeyCell (co : CaseOption) (odpc0 : DataFrame) (s : List PdVal) : String :=
  normCell co ((getCell (stripColsDF odpc0) s "NAME").getD PdVal.na)

/-- Columns of the merged frame after the Matched Name assignment, when the
stripped user columns, the stripped scraped columns and the derived ones do
not collide: each side's stripped columns followed by its normalized-key
column, then Matched Name. -/
def mergedColsG (df0 odpc0 : DataFrame) : List String :=
  (((stripColsDF df0).cols ++ ["provider_normalized"]) ++
    ((stripColsDF odpc0).cols ++ ["odpc_normalized"])) ++ ["Matched Name"]

/-- The desired-output columns available in the merged frame (line 150). -/
def availG (df0 odpc0 : DataFrame) : List String :=
  desiredColumns.filter (fun c => (mergedColsG df0 odpc0).contains c)

/-- The merged-and-matched rows contributed by one user row r against the
scraped reference frame: one row per reference row whose normalized NAME
equals the row's key (carrying every reference cell, the reference key and
the reference row's NAME cell as Matched Name), or a single row with NaN
reference cells when nothing matches. -/
def matchedRowsG (co : CaseOption) (df0 odpc0 : DataFrame)
    (r : List PdVal) : List (List PdVal) :=
  if (odpc0.rows.filter (fun s =>
      refKeyCell co odpc0 s == userKeyCell co df0 r)).isEmpty then
    [((r ++ [PdVal.str (userKeyCell co df0 r)]) ++
      List.replicate ((stripColsDF odpc0).cols ++ ["odpc_normalized"]).length PdVal.na) ++
      [PdVal.na]]
  else
    (odpc0.rows.filter (fun s =>
      refKeyCell co odpc0 s == userKeyCell co df0 r)).map
      (fun s => ((r ++ [PdVal.str (userKeyCell co df0 r)]) ++
        (s ++ [PdVal.str (refKeyCell co odpc0 s)])) ++
        [(getCell (stripColsDF odpc0) s "NAME").getD PdVal.na])

/-- The output rows contributed by one user row: its merged-and-matched rows
projected onto the available desired columns (line 154). -/
def projectedRowsG (co : CaseOption) (df0 odpc0 : DataFrame)
    (r : List PdVal) : List (List PdVal) :=
  (matchedRowsG co df0 odpc0 r).map (fun row =>
    (availG df0 odpc0).map (fun c =>
      (lookupRow (mergedColsG df0 odpc0) row c).getD PdVal.na))

/-! ### Lemmas about the string primitives -/

theorem toNat_ofNat_valid (n : Nat) (h : n < 55296) : (Char.ofNat n).toNat = n := by
  unfold Char.ofNat
  rw [dif_pos (Or.inl h : Nat.isValidChar n)]
  simp [Char.ofNatAux, Char.toNat, UInt32.toNat]

theorem isSpaceChar_eq_false (c : Char) (h : 64 ≤ c.toNat) : isSpaceChar c = false := by
  simp only [isSpaceChar, Bool.or_eq_false_iff, beq_eq_false_iff_ne, ne_eq]
  omega

theorem isSpaceChar_toLowerChar (c : Char) :
    isSpaceChar (toLowerChar c) = isSpaceChar c := by
  by_cases h : 65 ≤ c.toNat ∧ c.toNat ≤ 90
  · have hc : toLowerChar c = Char.ofNat (c.toNat + 32) := by
      unfold toLowerChar; rw [if_pos h]
    have h1 : (Char.ofNat (c.toNat + 32)).toNat = c.toNat + 32 :=
      toNat_ofNat_valid _ (by omega)
    have e1 : isSpaceChar (Char.ofNat (c.toNat + 32)) = false :=
      isSpaceChar_eq_false _ (by rw [h1]; omega)
    have e2 : isSpaceChar c = false := isSpaceChar_eq_false _ (by omega)
    rw [hc, e1, e2]
  · have hc : toLowerChar c = c := by unfold toLowerChar; rw [if_neg h]
    rw [hc]

theorem isSpaceChar_toUpperChar (c : Char) :
    isSpaceChar (toUpperChar c) = isSpaceChar c := by
  by_cases h : 97 ≤ c.toNat ∧ c.toNat ≤ 122
  · have hc : toUpperChar c = Char.ofNat (c.toNat - 32) := by
      unfold toUpperChar; rw [if_pos h]
    have h1 : (Char.ofNat (c.toNat - 32)).toNat = c.toNat - 32 :=
      toNat_ofNat_valid _ (by omega)
    have e1 : isSpaceChar (Char.ofNat (c.toNat - 32)) = false :=
      isSpaceChar_eq_false _ (by rw [h1]; omega)
    have e2 : isSpaceChar c = false := isSpaceChar_eq_false _ (by omega)
    rw [hc, e1, e2]
  · have hc : toUpperChar c = c := by unfold toUpperChar; rw [if_neg h]
    rw [hc]

theorem toLowerChar_idem (c : Char) : toLowerChar (toLowerChar c) = toLowerChar c := by
  by_cases h : 65 ≤ c.toNat ∧ c.toNat ≤ 90
  · have hc : toLowerChar c = Char.ofNat (c.toNat + 32) := by
      unfold toLowerChar; rw [if_pos h]
    have h1 : (Char.ofNat (c.toNat + 32)).toNat = c.toNat + 32 :=
      toNat_ofNat_valid _ (by omega)
    rw [hc]
    unfold toLowerChar
    rw [if_neg (by rw [h1]; omega)]
  · have hc : toLowerChar c = c := by unfold toLowerChar; rw [if_neg h]
    rw [hc]
    exact hc

theorem toUpperChar_idem (c : Char) : toUpperChar (toUpperChar c) = toUpperChar c := by
  by_cases h : 97 ≤ c.toNat ∧ c.toNat ≤ 122
  · have hc : toUpperChar c = Char.ofNat (c.toNat - 32) := by
      unfold toUpperChar; rw [if_pos h]
    have h1 : (Char.ofNat (c.toNat - 32)).toNat = c.toNat - 32 :=
      toNat_ofNat_valid _ (by omega)
    rw [hc]
    unfold toUpperChar
    rw [if_neg (by rw [h1]; omega)]
  · have hc : toUpperChar c = c := by unfold toUpperChar; rw [if_neg h]
    rw [hc]
    exact hc

theorem head_dropWhile_not {α : Type} (p : α → Bool) :
    ∀ (l : List α) (a : α), (l.dropWhile p).head? = some a → p a = false := by
  intro l
  induction l with
  | nil => intro a h; simp at h
  | cons b t ih =>
    intro a h
    by_cases hpb : p b = true
    · rw [List.dropWhile_cons_of_pos hpb] at h
      exact ih a h
    · rw [List.dropWhile_cons_of_neg hpb] at h
      simp at h
      rw [← h]
      exact Bool.eq_false_iff.mpr hpb

theorem dropWhile_eq_self_of_head {α : Type} (p : α → Bool) (l : List α)
    (h : ∀ a, l.head? = some a → p a = false) : l.dropWhile p = l := by
  cases l with
  | nil => rfl
  | cons b t =>
    have hb : p b = false := h b rfl
    rw [List.dropWhile_cons_of_neg (by simp [hb])]

theorem dropWhile_idem {α : Type} (p : α → Bool) (l : List α) :
    (l.dropWhile p).dropWhile p = l.dropWhile p :=
  dropWhile_eq_self_of_head p _ (head_dropWhile_not p l)

theorem getLast?_dropWhile {α : Type} (p : α → Bool) :
    ∀ l : List α, l.dropWhile p ≠ [] → (l.dropWhile p).getLast? = l.getLast? := by
  intro l
  induction l with
  | nil => intro h; simp at h
  | cons b t ih =>
    intro h
    by_cases hpb : p b = true
    · rw [List.dropWhile_cons_of_pos hpb] at h ⊢
      rw [ih h]
      cases t with
      | nil => simp [List.dropWhile] at h
      | cons c u => rw [List.getLast?_cons_cons]
    · rw [List.dropWhile_cons_of_neg hpb]

theorem stripL_head (l : List Char) (a : Char) :
    (stripL l).head? = some a → isSpaceChar a = false := by
  intro h
  unfold stripL at h
  rw [List.head?_reverse] at h
  have hne : (l.dropWhile isSpaceChar).reverse.dropWhile isSpaceChar ≠ [] := by
    intro hnil; rw [hnil] at h; simp at h
  rw [getLast?_dropWhile _ _ hne, List.getLast?_reverse] at h
  exact head_dropWhile_not isSpaceChar _ a h

theorem stripL_last (l : List Char) (a : Char) :
    (stripL l).getLast? = some a → isSpaceChar a = false := by
  intro h
  unfold stripL at h
  rw [List.getLast?_reverse] at h
  exact head_dropWhile_not isSpaceChar _ a h

theorem stripL_eq_self (l : List Char)
    (h1 : ∀ a, l.head? = some a → isSpaceChar a = false)
    (h2 : ∀ a, l.getLast? = some a → isSpaceChar a = false) : stripL l = l := by
  unfold stripL
  rw [dropWhile_eq_self_of_head _ _ h1]
  rw [dropWhile_eq_self_of_head _ _ (fun a ha => h2 a (by rwa [List.head?_reverse] at ha))]
  exact List.reverse_reverse l

theorem stripL_idem (l : List Char) : stripL (stripL l) = stripL l :=
  stripL_eq_self _ (stripL_head l) (stripL_last l)

theorem stripL_map (f : Char → Char) (hf : ∀ c, isSpaceChar (f c) = isSpaceChar c)
    (l : List Char) : stripL (l.map f) = (stripL l).map f := by
  have hcomp : (isSpaceChar ∘ f) = isSpaceChar := funext hf
  unfold stripL
  rw [List.dropWhile_map, hcomp, ← List.map_reverse, List.dropWhile_map, hcomp,
    ← List.map_reverse]

theorem pyStrip_idem (s : String) : pyStrip (pyStrip s) = pyStrip s := by
  unfold pyStrip
  exact congrArg String.mk (stripL_idem s.data)

theorem normalizeName_pyStrip (co : CaseOption) (s : String) :
    normalizeName co (pyStrip s) = normalizeName co s := by
  cases co
  · show pyLower (pyStrip (pyStrip s)) = pyLower (pyStrip s)
    rw [pyStrip_idem]
  · show pyUpper (pyStrip (pyStrip s)) = pyUpper (pyStrip s)
    rw [pyStrip_idem]

/-! ### Helper lemmas about the DataFrame operations -/

theorem zip_map_append (l : List (List PdVal)) (f : List PdVal → PdVal) :
    (l.zip (l.map f)).map (fun rv => rv.1 ++ [rv.2]) = l.map (fun r => r ++ [f r]) := by
  induction l with
  | nil => rfl
  | cons a t ih =>
    simp only [List.map_cons, List.zip_cons_cons]
    rw [ih]

theorem zip_map_set (l : List (List PdVal)) (f : List PdVal → PdVal) (i : Nat) :
    (l.zip (l.map f)).map (fun rv => rv.1.set i rv.2) = l.map (fun r => r.set i (f r)) := by
  induction l with
  | nil => rfl
  | cons a t ih =>
    simp only [List.map_cons, List.zip_cons_cons]
    rw [ih]

theorem setCol_rows_length (df : DataFrame) (c : String) (f : List PdVal → PdVal) :
    (setCol df c (df.rows.map f)).rows.length = df.rows.length := by
  unfold setCol
  cases h : df.cols.findIdx? (fun k => k == c) <;>
    simp [List.length_zip, List.length_map]

theorem setCol_of_findIdx?_none (df : DataFrame) (c : String) (f : List PdVal → PdVal)
    (h : df.cols.findIdx? (fun k => k == c) = none) :
    setCol df c (df.rows.map f) = ⟨df.cols ++ [c], df.rows.map (fun r => r ++ [f r])⟩ := by
  unfold setCol
  rw [h]
  dsimp only
  rw [zip_map_append]

theorem leftMerge_rows_length (dfL dfR : DataFrame) (kL kR : String) :
    (leftMerge dfL dfR kL kR).rows.length =
      (dfL.rows.map (fun l => max 1 (matchesOf dfL dfR kL kR l).length)).sum := by
  unfold leftMerge
  simp only [List.length_flatMap]
  congr 1
  apply List.map_congr_left
  intro l _
  simp only [Function.comp_apply]
  cases hE : matchesOf dfL dfR kL kR l with
  | nil => simp
  | cons a as =>
    simp only [List.length_map, List.length_cons]
    omega

theorem sum_map_one {α : Type} (l : List α) : (l.map (fun _ => (1 : Nat))).sum = l.length := by
  simp

theorem userNormalized_rows_length (co : CaseOption) (df0 : DataFrame) :
    (userNormalized co df0).rows.length = df0.rows.length := by
  unfold userNormalized
  rw [setCol_rows_length]
  rfl

/-! ### The checker on the schematic family: stage lemmas -/

theorem pyStrip_ProviderName : pyStrip "Provider Name" = "Provider Name" := by decide

theorem pyStrip_NAME : pyStrip "NAME" = "NAME" := by decide

theorem stripColsDF_userDfOf (ps : List String) :
    stripColsDF (userDfOf ps) = userDfOf ps := by
  unfold stripColsDF userDfOf
  simp [pyStrip_ProviderName]

theorem userNormalized_family (co : CaseOption) (ps : List String) :
    userNormalized co (userDfOf ps) =
      ⟨["Provider Name", "provider_normalized"],
        ps.map (fun p => [PdVal.str p, PdVal.str (normalizeName co p)])⟩ := by
  unfold userNormalized
  rw [stripColsDF_userDfOf]
  have hno : List.findIdx? (fun k => k == "provider_normalized") (userDfOf ps).cols = none := by
    show List.findIdx? (fun k => k == "provider_normalized") ["Provider Name"] = none
    decide
  rw [setCol_of_findIdx?_none _ _ _ hno]
  congr 1
  show (List.map (fun p => [PdVal.str p]) ps).map _ = _
  rw [List.map_map]
  apply List.map_congr_left
  intro p _
  rfl

theorem pyDict_single (k : String) (v : PdVal) : pyDict [(k, v)] = ([k], [v]) := rfl

theorem foldl_cols_stable :
    ∀ (ds : List (List String × List PdVal)) (acc : List String),
      (∀ d ∈ ds, ∀ k ∈ d.1, k ∈ acc) →
      ds.foldl (fun acc d => acc ++ d.1.filter (fun k => !acc.contains k)) acc = acc := by
  intro ds
  induction ds with
  | nil => intro acc _; rfl
  | cons d tl ih =>
    intro acc hall
    simp only [List.foldl_cons]
    have hfil : d.1.filter (fun k => !acc.contains k) = [] := by
      rw [List.filter_eq_nil_iff]
      intro k hk
      have hm : k ∈ acc := hall d (by simp) k hk
      simpa using hm
    rw [hfil, List.append_nil]
    exact ih acc (fun d2 hd2 => hall d2 (by simp [hd2]))

theorem dfOfDicts_single_NAME (vs : List PdVal) (hne : vs ≠ []) :
    dfOfDicts (vs.map (fun v => (["NAME"], [v]))) = ⟨["NAME"], vs.map (fun v => [v])⟩ := by
  cases vs with
  | nil => exact absurd rfl hne
  | cons v0 tl =>
    unfold dfOfDicts
    dsimp only
    have hcols :
        (List.map (fun v => ((["NAME"] : List String), ([v] : List PdVal))) (v0 :: tl)).foldl
          (fun acc d => acc ++ d.1.filter (fun k => !acc.contains k)) [] = ["NAME"] := by
      simp only [List.map_cons, List.foldl_cons]
      have h1 : (([] : List String) ++
          List.filter (fun k => !List.contains [] k) ["NAME"]) = ["NAME"] := rfl
      rw [h1]
      apply foldl_cols_stable
      intro d hd k hk
      obtain ⟨n, _, rfl⟩ := List.mem_map.mp hd
      simpa using hk
    rw [hcols]
    congr 1
    rw [List.map_map]
    apply List.map_congr_left
    intro v _
    rfl

theorem scrapeTable_tableOf (ns : List String) (hns : ns ≠ []) :
    scrapeTable (tableOf ns) = refDfOf ns := by
  unfold scrapeTable tableOf refDfOf
  have hh : List.map pyStrip ["NAME"] = ["NAME"] := by simp [pyStrip_NAME]
  simp only [hh]
  have hkept : (List.map (fun n => ([n] : List String)) ns).filter
      (fun cells => cells.length == (["NAME"] : List String).length) =
      List.map (fun n => [n]) ns := by
    rw [List.filter_eq_self]
    intro a ha
    obtain ⟨n, _, rfl⟩ := List.mem_map.mp ha
    rfl
  rw [hkept]
  have hd : (List.map (fun n => ([n] : List String)) ns).map
      (fun cells => pyDict ((["NAME"] : List String).zip
        (cells.map (fun s => PdVal.str (pyStrip s))))) =
      (ns.map (fun n => PdVal.str (pyStrip n))).map (fun v => (["NAME"], [v])) := by
    rw [List.map_map, List.map_map]
    apply List.map_congr_left
    intro n _
    rfl
  rw [hd, dfOfDicts_single_NAME _ (by simpa using hns)]
  congr 1
  rw [List.map_map]
  apply List.map_congr_left
  intro n _
  rfl

theorem refNormalized_family (co : CaseOption) (ns : List String) :
    refNormalized co (refDfOf ns) =
      ⟨["NAME", "odpc_normalized"],
        ns.map (fun n => [PdVal.str (pyStrip n), PdVal.str (normalizeName co n)])⟩ := by
  unfold refNormalized refDfOf
  have hstrip : stripColsDF ⟨["NAME"], ns.map (fun n => [PdVal.str (pyStrip n)])⟩ =
      ⟨["NAME"], ns.map (fun n => [PdVal.str (pyStrip n)])⟩ := by
    unfold stripColsDF
    simp [pyStrip_NAME]
  rw [hstrip]
  have hno : List.findIdx? (fun k => k == "odpc_normalized")
      (⟨["NAME"], ns.map (fun n => [PdVal.str (pyStrip n)])⟩ : DataFrame).cols = none := by
    show List.findIdx? (fun k => k == "odpc_normalized") ["NAME"] = none
    decide
  rw [setCol_of_findIdx?_none _ _ _ hno]
  congr 1
  show (List.map (fun n => [PdVal.str (pyStrip n)]) ns).map _ = _
  rw [List.map_map]
  apply List.map_congr_left
  intro n _
  show [PdVal.str (pyStrip n)] ++
      [PdVal.str (normCell co (PdVal.str (pyStrip n)))] = _
  have : normCell co (PdVal.str (pyStrip n)) = normalizeName co n := by
    show normalizeName co (pyStrip n) = normalizeName co n
    exact normalizeName_pyStrip co n
  rw [this]
  rfl

theorem flatMap_congr_left {α β : Type} (l : List α) (f g : α → List β)
    (h : ∀ a ∈ l, f a = g a) : l.flatMap f = l.flatMap g := by
  induction l with
  | nil => rfl
  | cons a t ih =>
    simp only [List.flatMap_cons]
    rw [h a (by simp), ih (fun a ha => h a (by simp [ha]))]

theorem matchesOf_family (co : CaseOption) (ps ns : List String) (p : String) :
    matchesOf
      ⟨["Provider Name", "provider_normalized"],
        ps.map (fun q => [PdVal.str q, PdVal.str (normalizeName co q)])⟩
      ⟨["NAME", "odpc_normalized"],
        ns.map (fun n => [PdVal.str (pyStrip n), PdVal.str (normalizeName co n)])⟩
      "provider_normalized" "odpc_normalized"
      [PdVal.str p, PdVal.str (normalizeName co p)] =
    (ns.filter (fun n => normalizeName co n == normalizeName co p)).map
      (fun n => [PdVal.str (pyStrip n), PdVal.str (normalizeName co n)]) := by
  unfold matchesOf
  dsimp only
  rw [List.filter_map]
  congr 1
  apply List.filter_congr
  intro n _
  show decide ((some (PdVal.str (normalizeName co n)) : Option PdVal) =
      some (PdVal.str (normalizeName co p))) = (normalizeName co n == normalizeName co p)
  by_cases h : normalizeName co n = normalizeName co p
  · rw [h]
    simp
  · simp [h]

theorem mergedDF_family (co : CaseOption) (ps ns : List String) :
    mergedDF co (userDfOf ps) (refDfOf ns) =
      ⟨["Provider Name", "provider_normalized", "NAME", "odpc_normalized"],
        ps.flatMap (fun p =>
          if (ns.filter (fun n => normalizeName co n == normalizeName co p)).isEmpty then
            [[PdVal.str p, PdVal.str (normalizeName co p), PdVal.na, PdVal.na]]
          else
            (ns.filter (fun n => normalizeName co n == normalizeName co p)).map
              (fun n => [PdVal.str p, PdVal.str (normalizeName co p),
                PdVal.str (pyStrip n), PdVal.str (normalizeName co n)]))⟩ := by
  unfold mergedDF
  rw [userNormalized_family, refNormalized_family]
  unfold leftMerge
  dsimp only
  congr 1
  rw [List.flatMap_map]
  apply flatMap_congr_left
  intro p _
  rw [matchesOf_family co ps ns p]
  cases hE : ns.filter (fun n => normalizeName co n == normalizeName co p) with
  | nil => rfl
  | cons a as =>
    show List.map (fun r => [PdVal.str p, PdVal.str (normalizeName co p)] ++ r)
        (List.map (fun n => [PdVal.str (pyStrip n), PdVal.str (normalizeName co n)])
          (a :: as)) = _
    rw [List.map_map]
    simp only [List.isEmpty_cons, Bool.false_eq_true, if_false]
    apply List.map_congr_left
    intro n _
    rfl

theorem matchedDF_family (co : CaseOption) (ps ns : List String) :
    matchedDF co (userDfOf ps) (refDfOf ns) =
      ⟨["Provider Name", "provider_normalized", "NAME", "odpc_normalized", "Matched Name"],
        ps.flatMap (fun p =>
          if (ns.filter (fun n => normalizeName co n == normalizeName co p)).isEmpty then
            [[PdVal.str p, PdVal.str (normalizeName co p), PdVal.na, PdVal.na, PdVal.na]]
          else
            (ns.filter (fun n => normalizeName co n == normalizeName co p)).map
              (fun n => [PdVal.str p, PdVal.str (normalizeName co p),
                PdVal.str (pyStrip n), PdVal.str (normalizeName co n),
                PdVal.str (pyStrip n)]))⟩ := by
  unfold matchedDF
  rw [mergedDF_family]
  have hno : List.findIdx? (fun k => k == "Matched Name")
      (⟨["Provider Name", "provider_normalized", "NAME", "odpc_normalized"],
        ps.flatMap (fun p =>
          if (ns.filter (fun n => normalizeName co n == normalizeName co p)).isEmpty then
            [[PdVal.str p, PdVal.str (normalizeName co p), PdVal.na, PdVal.na]]
          else
            (ns.filter (fun n => normalizeName co n == normalizeName co p)).map
              (fun n => [PdVal.str p, PdVal.str (normalizeName co p),
                PdVal.str (pyStrip n), PdVal.str (normalizeName co n)]))⟩ : DataFrame).cols
      = none := by
    show List.findIdx? (fun k => k == "Matched Name")
      ["Provider Name", "provider_normalized", "NAME", "odpc_normalized"] = none
    decide
  rw [setCol_of_findIdx?_none _ _ _ hno]
  congr 1
  show (ps.flatMap _).map _ = _
  rw [List.map_flatMap]
  apply flatMap_congr_left
  intro p _
  cases hE : ns.filter (fun n => normalizeName co n == normalizeName co p) with
  | nil => rfl
  | cons a as =>
    simp only [List.isEmpty_cons, Bool.false_eq_true, if_false]
    rw [List.map_map]
    apply List.map_congr_left
    intro n _
    rfl

theorem scrape_page_table (t : HtmlTable) :
    scrape_odpc_data (FetchOutcome.page (some t)) = scrapeTable t := rfl

theorem refDfOf_isEmpty_false (ns : List String) (hns : ns ≠ []) :
    (refDfOf ns).isEmpty = false := by
  unfold refDfOf DataFrame.isEmpty
  simp [hns]

theorem runChecker_family (co : CaseOption) (ps ns : List String) (hns : ns ≠ []) :
    runChecker co (userDfOf ps) (FetchOutcome.page (some (tableOf ns))) =
      AppResult.success ⟨["Provider Name", "Matched Name"], matchOutputRows co ps ns⟩ := by
  unfold runChecker
  have hsc : scrape_odpc_data (FetchOutcome.page (some (tableOf ns))) = refDfOf ns := by
    rw [scrape_page_table]
    exact scrapeTable_tableOf ns hns
  rw [hsc]
  have h1 : "Provider Name" ∈ (stripColsDF (userDfOf ps)).cols := by
    rw [stripColsDF_userDfOf]
    show "Provider Name" ∈ ["Provider Name"]
    simp
  rw [if_pos h1]
  rw [refDfOf_isEmpty_false ns hns]
  rw [if_neg Bool.false_ne_true]
  have h3 : "NAME" ∈ (stripColsDF (refDfOf ns)).cols := by
    show "NAME" ∈ List.map pyStrip ["NAME"]
    simp [pyStrip_NAME]
  rw [if_pos h3]
  rw [matchedDF_family]
  have havail : desiredColumns.filter (fun c =>
      (⟨["Provider Name", "provider_normalized", "NAME", "odpc_normalized", "Matched Name"],
        ps.flatMap (fun p =>
          if (ns.filter (fun n => normalizeName co n == normalizeName co p)).isEmpty then
            [[PdVal.str p, PdVal.str (normalizeName co p), PdVal.na, PdVal.na, PdVal.na]]
          else
            (ns.filter (fun n => normalizeName co n == normalizeName co p)).map
              (fun n => [PdVal.str p, PdVal.str (normalizeName co p),
                PdVal.str (pyStrip n), PdVal.str (normalizeName co n),
                PdVal.str (pyStrip n)]))⟩ : DataFrame).cols.contains c) =
      ["Provider Name", "Matched Name"] := by
    show desiredColumns.filter (fun c =>
      (["Provider Name", "provider_normalized", "NAME", "odpc_normalized",
        "Matched Name"] : List String).contains c) = ["Provider Name", "Matched Name"]
    decide
  rw [havail]
  congr 1
  unfold projectDF matchOutputRows
  congr 1
  show (ps.flatMap _).map _ = _
  rw [List.map_flatMap]
  apply flatMap_congr_left
  intro p _
  unfold rowsForProvider
  cases hE : ns.filter (fun n => normalizeName co n == normalizeName co p) with
  | nil => rfl
  | cons a as =>
    simp only [List.isEmpty_cons, Bool.false_eq_true, if_false]
    rw [List.map_map]
    apply List.map_congr_left
    intro n _
    rfl

theorem runChecker_success (co : CaseOption) (df0 : DataFrame) (fetch : FetchOutcome)
    (h1 : "Provider Name" ∈ (stripColsDF df0).cols)
    (h2 : (scrape_odpc_data fetch).isEmpty = false)
    (h3 : "NAME" ∈ (stripColsDF (scrape_odpc_data fetch)).cols) :
    runChecker co df0 fetch =
      AppResult.success
        (projectDF (matchedDF co df0 (scrape_odpc_data fetch))
          (desiredColumns.filter (fun c =>
            (matchedDF co df0 (scrape_odpc_data fetch)).cols.contains c))) := by
  unfold runChecker
  rw [if_pos h1, h2, if_neg Bool.false_ne_true, if_pos h3]

theorem stripL_map_lower (l : List Char) :
    stripL ((stripL l).map toLowerChar) = (stripL l).map toLowerChar := by
  rw [stripL_map toLowerChar isSpaceChar_toLowerChar, stripL_idem]

theorem stripL_map_upper (l : List Char) :
    stripL ((stripL l).map toUpperChar) = (stripL l).map toUpperChar := by
  rw [stripL_map toUpperChar isSpaceChar_toUpperChar, stripL_idem]

/-! ### The claims -/

/-- C5: normalization is idempotent. For every string and both case policies
(Lowercase and Uppercase), applying the normalization of main() (trim
whitespace, then apply the case transform) to an already-normalized string
returns it unchanged. -/
theorem c5_normalization_idempotent (co : CaseOption) (s : String) :
    normalizeName co (normalizeName co s) = normalizeName co s := by
  cases co
  · show pyLower (pyStrip (pyLower (pyStrip s))) = pyLower (pyStrip s)
    show String.mk ((stripL ((stripL s.data).map toLowerChar)).map toLowerChar) =
      String.mk ((stripL s.data).map toLowerChar)
    rw [stripL_map_lower, List.map_map]
    congr 1
    apply List.map_congr_left
    intro c _
    exact toLowerChar_idem c
  · show pyUpper (pyStrip (pyUpper (pyStrip s))) = pyUpper (pyStrip s)
    show String.mk ((stripL ((stripL s.data).map toUpperChar)).map toUpperChar) =
      String.mk ((stripL s.data).map toUpperChar)
    rw [stripL_map_upper, List.map_map]
    congr 1
    apply List.map_congr_left
    intro c _
    exact toUpperChar_idem c

/-- C6: a user dataset whose stripped columns do not contain "Provider Name"
makes the checker fail with the schema error that names the columns found,
and produces zero output rows: the join is never attempted. -/
theorem c6_missing_provider_column (co : CaseOption) (df0 : DataFrame) (fetch : FetchOutcome)
    (h : "Provider Name" ∉ (stripColsDF df0).cols) :
    runChecker co df0 fetch = AppResult.schemaErrorUser (stripColsDF df0).cols ∧
    resultRows (runChecker co df0 fetch) = [] := by
  have he : runChecker co df0 fetch = AppResult.schemaErrorUser (stripColsDF df0).cols := by
    unfold runChecker
    rw [if_neg h]
  refine ⟨he, ?_⟩
  rw [he]
  rfl

/-- C6 witness: a concrete dataset with a column named "Name" only. -/
theorem c6_missing_provider_column_witness :
    runChecker CaseOption.lowercase (⟨["Name"], [[PdVal.str "x"]]⟩ : DataFrame)
        (FetchOutcome.page (some (tableOf ["y"]))) =
      AppResult.schemaErrorUser (stripColsDF ⟨["Name"], [[PdVal.str "x"]]⟩).cols ∧
    resultRows (runChecker CaseOption.lowercase (⟨["Name"], [[PdVal.str "x"]]⟩ : DataFrame)
      (FetchOutcome.page (some (tableOf ["y"])))) = [] :=
  c6_missing_provider_column CaseOption.lowercase ⟨["Name"], [[PdVal.str "x"]]⟩
    (FetchOutcome.page (some (tableOf ["y"]))) (by decide)

/-- C7: a fetch that yields zero usable data rows (for example a header-only
table) is signalled to the caller as an empty DataFrame value rather than an
exception, and the checker aborts with the empty-fetch message before any
join is attempted, producing zero output rows. -/
theorem c7_empty_fetch_aborts (co : CaseOption) (df0 : DataFrame) (t : HtmlTable)
    (hPN : "Provider Name" ∈ (stripColsDF df0).cols)
    (hz : (scrapeTable t).rows = []) :
    scrape_odpc_data (FetchOutcome.page (some t)) = scrapeTable t ∧
    runChecker co df0 (FetchOutcome.page (some t)) = AppResult.emptyFetch ∧
    resultRows (runChecker co df0 (FetchOutcome.page (some t))) = [] := by
  have hemp : (scrape_odpc_data (FetchOutcome.page (some t))).isEmpty = true := by
    rw [scrape_page_table]
    unfold DataFrame.isEmpty
    rw [hz]
    rfl
  have he : runChecker co df0 (FetchOutcome.page (some t)) = AppResult.emptyFetch := by
    unfold runChecker
    rw [if_pos hPN, hemp, if_pos rfl]
  refine ⟨rfl, he, ?_⟩
  rw [he]
  rfl

/-- C7 witness: a header-only table aborts a run whose user dataset is
well-formed. -/
theorem c7_empty_fetch_aborts_witness :
    scrape_odpc_data (FetchOutcome.page (some (⟨["NAME"], []⟩ : HtmlTable))) =
      scrapeTable ⟨["NAME"], []⟩ ∧
    runChecker CaseOption.lowercase (userDfOf ["a"])
      (FetchOutcome.page (some (⟨["NAME"], []⟩ : HtmlTable))) = AppResult.emptyFetch ∧
    resultRows (runChecker CaseOption.lowercase (userDfOf ["a"])
      (FetchOutcome.page (some (⟨["NAME"], []⟩ : HtmlTable)))) = [] :=
  c7_empty_fetch_aborts CaseOption.lowercase (userDfOf ["a"]) ⟨["NAME"], []⟩
    (by decide) (by decide)

/-- C8: whenever the checker succeeds, the output contains only columns from
the fixed desired list, in that order (it is a sublist of desiredColumns):
desired columns absent from the merge are omitted and never cause a
failure. -/
theorem c8_projection_sublist (co : CaseOption) (df0 : DataFrame) (fetch : FetchOutcome)
    (out : DataFrame) (h : runChecker co df0 fetch = AppResult.success out) :
    out.cols.Sublist desiredColumns := by
  unfold runChecker at h
  by_cases h1 : "Provider Name" ∈ (stripColsDF df0).cols
  · rw [if_pos h1] at h
    by_cases h2 : (scrape_odpc_data fetch).isEmpty = true
    · rw [if_pos h2] at h
      exact AppResult.noConfusion h
    · rw [if_neg h2] at h
      by_cases h3 : "NAME" ∈ (stripColsDF (scrape_odpc_data fetch)).cols
      · rw [if_pos h3] at h
        injection h with h4
        rw [← h4]
        show (desiredColumns.filter _).Sublist desiredColumns
        exact List.filter_sublist desiredColumns
      · rw [if_neg h3] at h
        exact AppResult.noConfusion h
  · rw [if_neg h1] at h
    exact AppResult.noConfusion h

/-- C8 witness: a concrete successful run whose output columns are a sublist
of the desired list. -/
theorem c8_projection_sublist_witness :
    (⟨["Provider Name", "Matched Name"],
      matchOutputRows CaseOption.lowercase ["a"] ["b"]⟩ : DataFrame).cols.Sublist
      desiredColumns :=
  c8_projection_sublist CaseOption.lowercase (userDfOf ["a"])
    (FetchOutcome.page (some (tableOf ["b"])))
    ⟨["Provider Name", "Matched Name"], matchOutputRows CaseOption.lowercase ["a"] ["b"]⟩
    (runChecker_family CaseOption.lowercase ["a"] ["b"] (by decide))

/-- C9 (implicit): the scraper never propagates an exception to its caller.
Every exception outcome of the fetch (request error or non-success status,
both modelled by requestError, or any exception while parsing, modelled by
parseError), and also a page without a table, yields the empty DataFrame as
a value. -/
theorem c9_scraper_never_raises (m1 m2 : String) :
    scrape_odpc_data (FetchOutcome.requestError m1) = DataFrame.empty ∧
    scrape_odpc_data (FetchOutcome.parseError m2) = DataFrame.empty ∧
    scrape_odpc_data (FetchOutcome.page none) = DataFrame.empty :=
  ⟨rfl, rfl, rfl⟩

/-- C1 counterexample: the claim "the merged output contains exactly as many
rows as the user dataset, regardless of how many reference rows match" is
false. One user row "a" against a reference list with the duplicated name
"a" yields two output rows, because pd.merge(how="left") emits one row per
matching reference row. -/
theorem c1_left_join_cardinality_cex :
    (userDfOf ["a"]).rows.length = 1 ∧
    (resultRows (runChecker CaseOption.lowercase (userDfOf ["a"])
      (FetchOutcome.page (some (tableOf ["a", "a"]))))).length = 2 := by
  constructor
  · rfl
  · rfl

/-- C1 (amended): the output of a successful run has exactly as many rows as
the user dataset provided every user row's normalized name matches at most
one reference row; with duplicated matching reference names the left-merge
emits one output row per match instead. -/
theorem c1_left_join_cardinality (co : CaseOption) (df0 : DataFrame) (fetch : FetchOutcome)
    (h1 : "Provider Name" ∈ (stripColsDF df0).cols)
    (h2 : (scrape_odpc_data fetch).isEmpty = false)
    (h3 : "NAME" ∈ (stripColsDF (scrape_odpc_data fetch)).cols)
    (h4 : ∀ l ∈ (userNormalized co df0).rows,
      (matchesOf (userNormalized co df0) (refNormalized co (scrape_odpc_data fetch))
        "provider_normalized" "odpc_normalized" l).length ≤ 1) :
    ∃ out, runChecker co df0 fetch = AppResult.success out ∧
      out.rows.length = df0.rows.length := by
  refine ⟨_, runChecker_success co df0 fetch h1 h2 h3, ?_⟩
  show (projectDF (matchedDF co df0 (scrape_odpc_data fetch)) _).rows.length = _
  unfold projectDF
  dsimp only
  rw [List.length_map]
  unfold matchedDF
  rw [setCol_rows_length]
  unfold mergedDF
  rw [leftMerge_rows_length]
  have hone : (userNormalized co df0).rows.map (fun l =>
      max 1 (matchesOf (userNormalized co df0) (refNormalized co (scrape_odpc_data fetch))
        "provider_normalized" "odpc_normalized" l).length) =
      (userNormalized co df0).rows.map (fun _ => 1) := by
    apply List.map_congr_left
    intro l hl
    have := h4 l hl
    omega
  rw [hone, sum_map_one, userNormalized_rows_length]

/-- C1 witness: one user row against one non-matching reference row gives
exactly one output row. -/
theorem c1_left_join_cardinality_witness :
    ∃ out, runChecker CaseOption.lowercase (userDfOf ["a"])
        (FetchOutcome.page (some (tableOf ["b"]))) = AppResult.success out ∧
      out.rows.length = (userDfOf ["a"]).rows.length :=
  c1_left_join_cardinality CaseOption.lowercase (userDfOf ["a"])
    (FetchOutcome.page (some (tableOf ["b"])))
    (by decide) (by decide) (by decide) (by decide)

/-- C2 counterexample, two failing cases of the original claim. First,
"first match wins" is false: a user row "b" against reference names "b" and
"B" (both normalizing to "b" under Lowercase) produces two output rows for
that single user row, the second carrying the second duplicate "B" as
Matched Name, so duplicate reference names do yield multiple output rows and
not only the first match. Second, attaching the matching reference row is
not unconditional: when the uploaded dataset itself carries a NAME column,
the merge suffixes the colliding NAME columns to NAME_x / NAME_y, so
merged_df.get("NAME", None) of line 137 finds no NAME column and the
matching user row "beta" gets the missing value as Matched Name instead of
the matched reference NAME. -/
theorem c2_first_match_wins_cex :
    resultRows (runChecker CaseOption.lowercase (userDfOf ["b"])
        (FetchOutcome.page (some (tableOf ["b", "B"])))) =
      [[PdVal.str "b", PdVal.str "b"], [PdVal.str "b", PdVal.str "B"]] ∧
    runChecker CaseOption.lowercase
      (⟨["Provider Name", "NAME"], [[PdVal.str "beta", PdVal.str "z"]]⟩ : DataFrame)
      (FetchOutcome.page (some (tableOf ["beta"]))) =
      AppResult.success ⟨["Provider Name", "Matched Name"],
        [[PdVal.str "beta", PdVal.na]]⟩ := by
  refine ⟨rfl, by decide⟩

/-! ### Parsing with distinct headers (claim C4) -/

theorem findIdx?_eq_none {α : Type} (p : α → Bool) :
    ∀ l : List α, (∀ x ∈ l, p x = false) → l.findIdx? p = none := by
  intro l
  induction l with
  | nil => intro _; rfl
  | cons a tl ih =>
    intro h
    rw [List.findIdx?_cons, h a (by simp), if_neg (by simp), List.findIdx?_succ,
      ih (fun x hx => h x (by simp [hx]))]
    rfl

theorem pyDict_fold_nodup :
    ∀ (ks : List String) (vs : List PdVal) (acc1 : List String) (acc2 : List PdVal),
      (acc1 ++ ks).Nodup → ks.length = vs.length →
      (ks.zip vs).foldl (fun acc p => dictInsert acc.1 acc.2 p.1 p.2) (acc1, acc2) =
        (acc1 ++ ks, acc2 ++ vs) := by
  intro ks
  induction ks with
  | nil =>
    intro vs acc1 acc2 _ hlen
    cases vs with
    | nil => simp [List.zip]
    | cons v vs2 => simp at hlen
  | cons k ks2 ih =>
    intro vs acc1 acc2 hnd hlen
    cases vs with
    | nil => simp at hlen
    | cons v vs2 =>
      have hknotin : k ∉ acc1 := by
        intro hk
        have hdisj := (List.nodup_append.mp hnd).2.2
        exact hdisj hk (by simp)
      have hstep : dictInsert acc1 acc2 k v = (acc1 ++ [k], acc2 ++ [v]) := by
        unfold dictInsert
        rw [findIdx?_eq_none _ acc1 (fun x hx =>
          beq_eq_false_iff_ne.mpr (fun he => hknotin (by rw [← he]; exact hx)))]
      show (ks2.zip vs2).foldl _ (dictInsert acc1 acc2 k v) = _
      rw [hstep]
      have hnd2 : ((acc1 ++ [k]) ++ ks2).Nodup := by
        have : (acc1 ++ [k]) ++ ks2 = acc1 ++ k :: ks2 := by
          rw [List.append_assoc]
          rfl
        rw [this]
        exact hnd
      rw [ih vs2 (acc1 ++ [k]) (acc2 ++ [v]) hnd2 (by simpa using hlen)]
      rw [List.append_assoc, List.append_assoc]
      rfl

theorem pyDict_nodup (ks : List String) (vs : List PdVal)
    (hnd : ks.Nodup) (hlen : ks.length = vs.length) :
    pyDict (ks.zip vs) = (ks, vs) := by
  unfold pyDict
  rw [pyDict_fold_nodup ks vs [] [] (by simpa using hnd) hlen]
  rfl

theorem dfOfDicts_rows_eq (ds : List (List String × List PdVal)) :
    (dfOfDicts ds).rows = ds.map (fun d =>
      (ds.foldl (fun acc d => acc ++ d.1.filter (fun k => !acc.contains k)) []).map
        (fun c => ((d.1.zip d.2).lookup c).getD PdVal.na)) := rfl

theorem dfOfDicts_cols_eq (ds : List (List String × List PdVal)) :
    (dfOfDicts ds).cols =
      ds.foldl (fun acc d => acc ++ d.1.filter (fun k => !acc.contains k)) [] := rfl

theorem dfOfDicts_const_cols (hd : List String) (ds : List (List String × List PdVal))
    (hne : ds ≠ []) (hall : ∀ d ∈ ds, d.1 = hd) :
    ds.foldl (fun acc d => acc ++ d.1.filter (fun k => !acc.contains k)) [] = hd := by
  cases ds with
  | nil => exact absurd rfl hne
  | cons d0 tl =>
    simp only [List.foldl_cons]
    have h0 : d0.1 = hd := hall d0 (by simp)
    have h1 : ([] : List String) ++ d0.1.filter (fun k => !List.contains [] k) = hd := by
      rw [h0, List.nil_append, List.filter_eq_self]
      intro a _
      rfl
    rw [h1]
    apply foldl_cols_stable
    intro d hdm k hk
    rw [hall d (by simp [hdm])] at hk
    exact hk

theorem map_lookup_zip :
    ∀ (ks : List String) (vs : List PdVal), ks.Nodup → ks.length = vs.length →
      ks.map (fun c => ((ks.zip vs).lookup c).getD PdVal.na) = vs := by
  intro ks
  induction ks with
  | nil =>
    intro vs _ hlen
    cases vs with
    | nil => rfl
    | cons v vs2 => simp at hlen
  | cons k ks2 ih =>
    intro vs hnd hlen
    cases vs with
    | nil => simp at hlen
    | cons v vs2 =>
      simp only [List.map_cons, List.zip_cons_cons]
      have hhead : (List.lookup k ((k, v) :: ks2.zip vs2)).getD PdVal.na = v := by
        simp [List.lookup]
      rw [hhead]
      have hknotin : k ∉ ks2 := (List.nodup_cons.mp hnd).1
      have htail : ks2.map (fun c => (List.lookup c ((k, v) :: ks2.zip vs2)).getD PdVal.na) =
          ks2.map (fun c => (List.lookup c (ks2.zip vs2)).getD PdVal.na) := by
        apply List.map_congr_left
        intro c hc
        have hkc : (c == k) = false :=
          beq_eq_false_iff_ne.mpr (fun he => hknotin (by rw [← he]; exact hc))
        simp [List.lookup, hkc]
      rw [htail, ih vs2 (List.nodup_cons.mp hnd).2 (by simpa using hlen)]

theorem findIdx?_self :
    ∀ (ks : List String), ks.Nodup → ∀ (i : Nat) (hi : i < ks.length),
      ks.findIdx? (fun x => x == ks.get ⟨i, hi⟩) = some i := by
  intro ks
  induction ks with
  | nil => intro _ i hi; simp at hi
  | cons k tl ih =>
    intro hnd i hi
    cases i with
    | zero => simp [List.findIdx?_cons]
    | succ j =>
      have hj : j < tl.length := by simpa using hi
      have hget : (k :: tl).get ⟨j + 1, hi⟩ = tl.get ⟨j, hj⟩ := rfl
      rw [hget, List.findIdx?_cons]
      have hk : (k == tl.get ⟨j, hj⟩) = false :=
        beq_eq_false_iff_ne.mpr (fun he =>
          (List.nodup_cons.mp hnd).1 (by rw [he]; exact List.get_mem tl j hj))
      rw [hk, if_neg (by simp), List.findIdx?_succ, ih (List.nodup_cons.mp hnd).2 j hj]
      rfl

theorem scrapeTable_dicts (t : HtmlTable) (hnd : (t.headerCells.map pyStrip).Nodup) :
    (t.bodyRows.filter (fun cells =>
        cells.length == (t.headerCells.map pyStrip).length)).map
      (fun cells => pyDict ((t.headerCells.map pyStrip).zip
        (cells.map (fun s => PdVal.str (pyStrip s))))) =
    (t.bodyRows.filter (fun cells =>
        cells.length == (t.headerCells.map pyStrip).length)).map
      (fun cells => (t.headerCells.map pyStrip,
        cells.map (fun s => PdVal.str (pyStrip s)))) := by
  apply List.map_congr_left
  intro cells hcells
  have hlen : cells.length = (t.headerCells.map pyStrip).length :=
    eq_of_beq (List.mem_filter.mp hcells).2
  refine pyDict_nodup _ _ hnd ?_
  simp only [List.length_map] at hlen ⊢
  omega

theorem scrapeTable_eq (t : HtmlTable) (hnd : (t.headerCells.map pyStrip).Nodup)
    (hne : t.bodyRows.filter (fun cells =>
      cells.length == (t.headerCells.map pyStrip).length) ≠ []) :
    scrapeTable t =
      ⟨t.headerCells.map pyStrip,
        (t.bodyRows.filter (fun cells =>
          cells.length == (t.headerCells.map pyStrip).length)).map
          (fun cells => cells.map (fun s => PdVal.str (pyStrip s)))⟩ := by
  unfold scrapeTable
  dsimp only
  rw [scrapeTable_dicts t hnd]
  have hall : ∀ d ∈ (t.bodyRows.filter (fun cells =>
      cells.length == (t.headerCells.map pyStrip).length)).map
        (fun cells => (t.headerCells.map pyStrip,
          cells.map (fun s => PdVal.str (pyStrip s)))),
      d.1 = t.headerCells.map pyStrip := by
    intro d hdm
    obtain ⟨cells, _, rfl⟩ := List.mem_map.mp hdm
    rfl
  have hnee : (t.bodyRows.filter (fun cells =>
      cells.length == (t.headerCells.map pyStrip).length)).map
        (fun cells => (t.headerCells.map pyStrip,
          cells.map (fun s => PdVal.str (pyStrip s)))) ≠ [] := by
    simpa using hne
  unfold dfOfDicts
  dsimp only
  rw [dfOfDicts_const_cols (t.headerCells.map pyStrip) _ hnee hall]
  congr 1
  rw [List.map_map]
  apply List.map_congr_left
  intro cells hcells
  have hlen : cells.length = (t.headerCells.map pyStrip).length :=
    eq_of_beq (List.mem_filter.mp hcells).2
  show (t.headerCells.map pyStrip).map (fun c =>
      (((t.headerCells.map pyStrip).zip
        (cells.map (fun s => PdVal.str (pyStrip s)))).lookup c).getD PdVal.na) = _
  refine map_lookup_zip _ _ hnd ?_
  simp only [List.length_map] at hlen ⊢
  omega

/-- C4: table-parsing shape rule. With pairwise-distinct stripped headers,
the parsed rows are exactly the body rows whose cell count equals the header
count (others are silently excluded), each kept row being its stripped cell
texts in order; and looking up the i-th stripped header in a kept row yields
the stripped text of its i-th cell. -/
theorem c4_parse_shape (t : HtmlTable) (hnd : (t.headerCells.map pyStrip).Nodup) :
    (scrapeTable t).rows =
      (t.bodyRows.filter (fun cells =>
        cells.length == (t.headerCells.map pyStrip).length)).map
        (fun cells => cells.map (fun s => PdVal.str (pyStrip s))) ∧
    (∀ cells ∈ t.bodyRows, ∀ hlen : cells.length = t.headerCells.length,
      ∀ (i : Nat) (hi : i < t.headerCells.length),
        getCell (scrapeTable t) (cells.map (fun s => PdVal.str (pyStrip s)))
          ((t.headerCells.map pyStrip).get ⟨i, by rw [List.length_map]; exact hi⟩) =
          some (PdVal.str (pyStrip (cells.get ⟨i, by rw [hlen]; exact hi⟩)))) := by
  constructor
  · cases hke : t.bodyRows.filter (fun cells =>
        cells.length == (t.headerCells.map pyStrip).length) with
    | nil =>
      unfold scrapeTable
      dsimp only
      rw [hke]
      rfl
    | cons a as =>
      rw [scrapeTable_eq t hnd (by rw [hke]; simp)]
      dsimp only
      rw [hke]
  · intro cells hmem hlen i hi
    have hkeptmem : cells ∈ t.bodyRows.filter (fun cs =>
        cs.length == (t.headerCells.map pyStrip).length) :=
      List.mem_filter.mpr ⟨hmem, beq_iff_eq.mpr (by rw [hlen, List.length_map])⟩
    have hne : t.bodyRows.filter (fun cs =>
        cs.length == (t.headerCells.map pyStrip).length) ≠ [] := by
      intro h
      rw [h] at hkeptmem
      exact absurd hkeptmem (List.not_mem_nil _)
    rw [scrapeTable_eq t hnd hne]
    unfold getCell
    rw [findIdx?_self _ hnd i (by rw [List.length_map]; exact hi)]
    show (cells.map (fun s => PdVal.str (pyStrip s))).get? i = _
    rw [List.get?_map, List.get?_eq_get (show i < cells.length by rw [hlen]; exact hi)]
    rfl

/-- C4 witness: a table with headers NAME and TYPE, one malformed single-cell
body row that is dropped, and two well-formed rows that are kept with their
cell texts stripped. -/
theorem c4_parse_shape_witness :
    (scrapeTable ⟨[" NAME ", "TYPE"], [["a", " t "], ["only-one"], ["b", "u"]]⟩).rows =
      [[PdVal.str "a", PdVal.str "t"], [PdVal.str "b", PdVal.str "u"]] :=
  ((c4_parse_shape ⟨[" NAME ", "TYPE"], [["a", " t "], ["only-one"], ["b", "u"]]⟩
    (by decide)).1).trans (by decide)

/-! ### Column membership through the scraper (claim C10) -/

theorem exists_of_findIdx?_eq_some {α : Type} (p : α → Bool) :
    ∀ (l : List α) (i : Nat), l.findIdx? p = some i → ∃ x ∈ l, p x = true := by
  intro l
  induction l with
  | nil => intro i h; simp [List.findIdx?] at h
  | cons a tl ih =>
    intro i h
    rw [List.findIdx?_cons] at h
    by_cases hpa : p a = true
    · exact ⟨a, by simp, hpa⟩
    · rw [if_neg hpa, List.findIdx?_succ] at h
      cases hidx : tl.findIdx? p with
      | none => rw [hidx] at h; simp at h
      | some j =>
        obtain ⟨x, hx, hpx⟩ := ih j hidx
        exact ⟨x, by simp [hx], hpx⟩

theorem dictInsert_fst_mem (ks : List String) (vs : List PdVal) (k : String) (v : PdVal)
    (x : String) (hx : x ∈ ks) : x ∈ (dictInsert ks vs k v).1 := by
  unfold dictInsert
  cases h : ks.findIdx? (fun y => y == k) with
  | some i => exact hx
  | none => exact List.mem_append_left _ hx

theorem dictInsert_fst_mem_self (ks : List String) (vs : List PdVal) (k : String) (v : PdVal) :
    k ∈ (dictInsert ks vs k v).1 := by
  unfold dictInsert
  cases h : ks.findIdx? (fun y => y == k) with
  | some i =>
    obtain ⟨x, hx, hpx⟩ := exists_of_findIdx?_eq_some _ ks i h
    rw [← eq_of_beq hpx]
    exact hx
  | none => exact List.mem_append_right _ (by simp)

theorem foldl_dict_mem :
    ∀ (pairs : List (String × PdVal)) (acc : List String × List PdVal) (k : String),
      (k ∈ acc.1 ∨ k ∈ pairs.map Prod.fst) →
      k ∈ (pairs.foldl (fun acc p => dictInsert acc.1 acc.2 p.1 p.2) acc).1 := by
  intro pairs
  induction pairs with
  | nil =>
    intro acc k h
    cases h with
    | inl h => exact h
    | inr h => simp at h
  | cons p pairs2 ih =>
    intro acc k h
    show k ∈ (pairs2.foldl _ (dictInsert acc.1 acc.2 p.1 p.2)).1
    cases h with
    | inl h => exact ih _ k (Or.inl (dictInsert_fst_mem _ _ _ _ _ h))
    | inr h =>
      rw [List.map_cons] at h
      cases List.mem_cons.mp h with
      | inl h2 =>
        exact ih _ k (Or.inl (by rw [h2]; exact dictInsert_fst_mem_self _ _ _ _))
      | inr h2 => exact ih _ k (Or.inr h2)

theorem foldl_cols_mem_acc :
    ∀ (ds : List (List String × List PdVal)) (acc : List String) (k : String),
      k ∈ acc →
      k ∈ ds.foldl (fun acc d => acc ++ d.1.filter (fun k => !acc.contains k)) acc := by
  intro ds
  induction ds with
  | nil => intro acc k h; exact h
  | cons d tl ih => intro acc k h; exact ih _ k (List.mem_append_left _ h)

theorem foldl_cols_mem :
    ∀ (ds : List (List String × List PdVal)) (acc : List String)
      (d : List String × List PdVal), d ∈ ds → ∀ k ∈ d.1,
      k ∈ ds.foldl (fun acc d => acc ++ d.1.filter (fun k => !acc.contains k)) acc := by
  intro ds
  induction ds with
  | nil => intro acc d hd; simp at hd
  | cons d0 tl ih =>
    intro acc d hd k hk
    cases List.mem_cons.mp hd with
    | inl h2 =>
      rw [h2] at hk
      show k ∈ tl.foldl _ (acc ++ d0.1.filter (fun x => !acc.contains x))
      apply foldl_cols_mem_acc
      by_cases hacc : k ∈ acc
      · exact List.mem_append_left _ hacc
      · apply List.mem_append_right
        rw [List.mem_filter]
        refine ⟨hk, ?_⟩
        have hel : List.elem k acc = false := by
          cases hE : List.elem k acc
          · rfl
          · exact absurd (List.elem_iff.mp hE) hacc
        show (!(List.elem k acc)) = true
        rw [hel]
        rfl
    | inr h2 => exact ih _ d h2 k hk

/-- C10 (implicit): column names of both datasets are stripped of surrounding
whitespace before the required-column checks. A user column whose stripped
name is "Provider Name" (for example " Provider Name ") passes the user
schema check, and a table header whose stripped text is "NAME" (for example
" NAME ") makes the reference schema check pass, so the run never ends in
either schema error. -/
theorem c10_column_stripping (co : CaseOption) (df0 : DataFrame) (t : HtmlTable)
    (c h0 : String) (hc : c ∈ df0.cols) (hcs : pyStrip c = "Provider Name")
    (hh : h0 ∈ t.headerCells) (hhs : pyStrip h0 = "NAME") :
    (runChecker co df0 (FetchOutcome.page (some t))).isSchemaErrorUser = false ∧
    (runChecker co df0 (FetchOutcome.page (some t))).isSchemaErrorRef = false := by
  have h1 : "Provider Name" ∈ (stripColsDF df0).cols := by
    show "Provider Name" ∈ df0.cols.map pyStrip
    exact List.mem_map.mpr ⟨c, hc, hcs⟩
  unfold runChecker
  rw [if_pos h1]
  by_cases h2 : (scrape_odpc_data (FetchOutcome.page (some t))).isEmpty = true
  · rw [if_pos h2]
    exact ⟨rfl, rfl⟩
  · rw [if_neg h2]
    have h3 : "NAME" ∈ (stripColsDF (scrape_odpc_data (FetchOutcome.page (some t)))).cols := by
      have hrows : (scrapeTable t).rows ≠ [] := by
        intro hz
        apply h2
        rw [scrape_page_table]
        unfold DataFrame.isEmpty
        rw [hz]
        rfl
      have hkept : t.bodyRows.filter (fun cells =>
          cells.length == (t.headerCells.map pyStrip).length) ≠ [] := by
        intro hk
        apply hrows
        unfold scrapeTable
        dsimp only
        rw [hk]
        rfl
      obtain ⟨cells, hcellsmem⟩ := List.exists_mem_of_ne_nil _ hkept
      have hlen : cells.length = (t.headerCells.map pyStrip).length :=
        eq_of_beq (List.mem_filter.mp hcellsmem).2
      have hfst : pyStrip h0 ∈ ((t.headerCells.map pyStrip).zip
          (cells.map (fun s => PdVal.str (pyStrip s)))).map Prod.fst := by
        rw [List.map_fst_zip]
        · exact List.mem_map.mpr ⟨h0, hh, rfl⟩
        · simp only [List.length_map] at hlen ⊢
          omega
      have hkey : pyStrip h0 ∈ (pyDict ((t.headerCells.map pyStrip).zip
          (cells.map (fun s => PdVal.str (pyStrip s))))).1 :=
        foldl_dict_mem _ ([], []) _ (Or.inr hfst)
      have hmemcols : pyStrip h0 ∈ (scrapeTable t).cols := by
        unfold scrapeTable
        dsimp only
        rw [dfOfDicts_cols_eq]
        exact foldl_cols_mem _ []
          (pyDict ((t.headerCells.map pyStrip).zip
            (cells.map (fun s => PdVal.str (pyStrip s)))))
          (List.mem_map.mpr ⟨cells, hcellsmem, rfl⟩) (pyStrip h0) hkey
      show "NAME" ∈ (scrapeTable t).cols.map pyStrip
      exact List.mem_map.mpr ⟨pyStrip h0, hmemcols, by rw [pyStrip_idem]; exact hhs⟩
    rw [if_pos h3]
    exact ⟨rfl, rfl⟩

/-- C10 witness: a user column " Provider Name " and a header cell " NAME ",
both carrying surrounding whitespace, are accepted. -/
theorem c10_column_stripping_witness :
    (runChecker CaseOption.lowercase (⟨[" Provider Name "], [[PdVal.str "x"]]⟩ : DataFrame)
      (FetchOutcome.page (some (⟨[" NAME "], [["x"]]⟩ : HtmlTable)))).isSchemaErrorUser
      = false ∧
    (runChecker CaseOption.lowercase (⟨[" Provider Name "], [[PdVal.str "x"]]⟩ : DataFrame)
      (FetchOutcome.page (some (⟨[" NAME "], [["x"]]⟩ : HtmlTable)))).isSchemaErrorRef
      = false :=
  c10_column_stripping CaseOption.lowercase ⟨[" Provider Name "], [[PdVal.str "x"]]⟩
    ⟨[" NAME "], [["x"]]⟩ " Provider Name " " NAME "
    (by decide) (by decide) (by decide) (by decide)

/-! ### The checker on an arbitrary user dataset (claims C2 and C3) -/

theorem getCell_eq_lookupRow (df : DataFrame) (r : List PdVal) (c : String) :
    getCell df r c = lookupRow df.cols r c := rfl

theorem contains_eq_false_of_not_mem (l : List String) (c : String) (h : c ∉ l) :
    l.contains c = false := by
  cases hE : l.contains c
  · rfl
  · exact absurd (List.elem_iff.mp hE) h

theorem contains_eq_true_of_mem (l : List String) (c : String) (h : c ∈ l) :
    l.contains c = true :=
  List.elem_iff.mpr h

theorem findIdx?_append_of_not_mem (c : String) :
    ∀ (l1 l2 : List String), c ∉ l1 →
      (l1 ++ l2).findIdx? (fun x => x == c) =
        (l2.findIdx? (fun x => x == c)).map (fun i => i + l1.length) := by
  intro l1
  induction l1 with
  | nil =>
    intro l2 _
    show l2.findIdx? _ = (l2.findIdx? _).map (fun i => i + 0)
    cases h : l2.findIdx? (fun x => x == c) <;> simp
  | cons a tl ih =>
    intro l2 hc
    have ha : (a == c) = false :=
      beq_eq_false_iff_ne.mpr (fun he => hc (by rw [he]; simp))
    show ((a :: (tl ++ l2)).findIdx? _) = _
    rw [List.findIdx?_cons, ha, if_neg (by simp), List.findIdx?_succ,
      ih l2 (fun h => hc (by simp [h]))]
    cases h : l2.findIdx? (fun x => x == c)
    · rfl
    · show some _ = some _
      congr 1

theorem findIdx?_eq_of_mem (c : String) :
    ∀ l : List String, c ∈ l → ∃ i, l.findIdx? (fun x => x == c) = some i ∧
      ∃ h : i < l.length, l.get ⟨i, h⟩ = c := by
  intro l
  induction l with
  | nil => intro h; simp at h
  | cons a tl ih =>
    intro hc
    by_cases ha : (a == c) = true
    · exact ⟨0, by rw [List.findIdx?_cons, ha, if_pos rfl],
        Nat.succ_pos _, eq_of_beq ha⟩
    · have hc2 : c ∈ tl := by
        cases List.mem_cons.mp hc with
        | inl h => exact absurd (beq_iff_eq.mpr h.symm) ha
        | inr h => exact h
      obtain ⟨i, hfi, hlt, hget⟩ := ih hc2
      refine ⟨i + 1, ?_, Nat.succ_lt_succ hlt, hget⟩
      rw [List.findIdx?_cons, if_neg ha, List.findIdx?_succ, hfi]
      rfl

theorem lookupRow_map_self (cols : List String) (f : String → PdVal) (c : String)
    (hc : c ∈ cols) : lookupRow cols (cols.map f) c = some (f c) := by
  obtain ⟨i, hfi, hlt, hget⟩ := findIdx?_eq_of_mem c cols hc
  unfold lookupRow
  rw [hfi]
  show (cols.map f).get? i = some (f c)
  rw [List.get?_map, List.get?_eq_get hlt, ← hget]
  rfl

theorem lookupRow_append (l1 l2 : List String) (c : String) (h : c ∉ l1)
    (r tail : List PdVal) (hlen : r.length = l1.length) :
    lookupRow (l1 ++ l2) (r ++ tail) c = lookupRow l2 tail c := by
  unfold lookupRow
  rw [findIdx?_append_of_not_mem c l1 l2 h]
  cases hE : l2.findIdx? (fun x => x == c) with
  | none => rfl
  | some i =>
    show (r ++ tail).get? (i + l1.length) = tail.get? i
    rw [List.get?_append_right (by omega)]
    congr 1
    omega

theorem userNormalized_user (co : CaseOption) (df0 : DataFrame)
    (hpn2 : "provider_normalized" ∉ (stripColsDF df0).cols) :
    userNormalized co df0 =
      ⟨(stripColsDF df0).cols ++ ["provider_normalized"],
        df0.rows.map (fun r => r ++ [PdVal.str (userKeyCell co df0 r)])⟩ := by
  unfold userNormalized
  have hno : (stripColsDF df0).cols.findIdx? (fun k => k == "provider_normalized") = none :=
    findIdx?_eq_none _ _ (fun x hx =>
      beq_eq_false_iff_ne.mpr (fun he => hpn2 (by rw [← he]; exact hx)))
  rw [setCol_of_findIdx?_none _ _ _ hno]
  rfl

theorem refNormalized_user (co : CaseOption) (odpc0 : DataFrame)
    (honR : "odpc_normalized" ∉ (stripColsDF odpc0).cols) :
    refNormalized co odpc0 =
      ⟨(stripColsDF odpc0).cols ++ ["odpc_normalized"],
        odpc0.rows.map (fun s => s ++ [PdVal.str (refKeyCell co odpc0 s)])⟩ := by
  unfold refNormalized
  have hno : (stripColsDF odpc0).cols.findIdx? (fun k => k == "odpc_normalized") = none :=
    findIdx?_eq_none _ _ (fun x hx =>
      beq_eq_false_iff_ne.mpr (fun he => honR (by rw [← he]; exact hx)))
  rw [setCol_of_findIdx?_none _ _ _ hno]
  rfl

theorem findIdx?_append_of_eq_some (c : String) :
    ∀ (l1 l2 : List String) (i : Nat), l1.findIdx? (fun x => x == c) = some i →
      (l1 ++ l2).findIdx? (fun x => x == c) = some i := by
  intro l1
  induction l1 with
  | nil =>
    intro l2 i h
    exact absurd h (by simp)
  | cons a tl ih =>
    intro l2 i h
    show ((a :: (tl ++ l2)).findIdx? _) = some i
    rw [List.findIdx?_cons] at h ⊢
    cases ha : (a == c) with
    | true =>
      rw [ha] at h
      rw [if_pos rfl] at h
      rw [if_pos rfl]
      exact h
    | false =>
      rw [ha] at h
      rw [if_neg (by simp)] at h
      rw [if_neg (by simp)]
      rw [List.findIdx?_succ] at h ⊢
      cases hE : tl.findIdx? (fun x => x == c) with
      | none =>
        rw [hE] at h
        exact absurd h (by simp)
      | some j =>
        rw [hE] at h
        rw [ih l2 j hE]
        exact h

theorem lookupRow_append_left (l1 l2 : List String) (c : String) (hc : c ∈ l1)
    (r1 r2 : List PdVal) (hlen : r1.length = l1.length) :
    lookupRow (l1 ++ l2) (r1 ++ r2) c = lookupRow l1 r1 c := by
  obtain ⟨i, hfi, hlt, _⟩ := findIdx?_eq_of_mem c l1 hc
  unfold lookupRow
  rw [findIdx?_append_of_eq_some c l1 l2 i hfi, hfi]
  show (r1 ++ r2).get? i = r1.get? i
  rw [List.get?_append (by omega)]

theorem get?_replicate_of_lt (a : PdVal) : ∀ (n i : Nat), i < n →
    (List.replicate n a).get? i = some a := by
  intro n
  induction n with
  | zero =>
    intro i h
    omega
  | succ m ih =>
    intro i h
    cases i with
    | zero => rfl
    | succ j =>
      show (List.replicate m a).get? j = some a
      exact ih j (by omega)

theorem matchesOf_G (co : CaseOption) (dfL : DataFrame) (odpc0 : DataFrame)
    (l : List PdVal) (x : String)
    (hx : getCell dfL l "provider_normalized" = some (PdVal.str x))
    (hwfR : ∀ s ∈ odpc0.rows, s.length = odpc0.cols.length)
    (honR : "odpc_normalized" ∉ (stripColsDF odpc0).cols) :
    matchesOf dfL
      ⟨(stripColsDF odpc0).cols ++ ["odpc_normalized"],
        odpc0.rows.map (fun s => s ++ [PdVal.str (refKeyCell co odpc0 s)])⟩
      "provider_normalized" "odpc_normalized" l =
    (odpc0.rows.filter (fun s => refKeyCell co odpc0 s == x)).map
      (fun s => s ++ [PdVal.str (refKeyCell co odpc0 s)]) := by
  unfold matchesOf
  dsimp only
  rw [List.filter_map]
  congr 1
  apply List.filter_congr
  intro s hs
  have hslen : s.length = (stripColsDF odpc0).cols.length := by
    rw [hwfR s hs]
    show odpc0.cols.length = (odpc0.cols.map pyStrip).length
    rw [List.length_map]
  have hcell : getCell
      (⟨(stripColsDF odpc0).cols ++ ["odpc_normalized"],
        odpc0.rows.map (fun s => s ++ [PdVal.str (refKeyCell co odpc0 s)])⟩ : DataFrame)
      (s ++ [PdVal.str (refKeyCell co odpc0 s)]) "odpc_normalized" =
      some (PdVal.str (refKeyCell co odpc0 s)) := by
    rw [getCell_eq_lookupRow]
    show lookupRow ((stripColsDF odpc0).cols ++ ["odpc_normalized"]) _ _ = _
    rw [lookupRow_append _ _ _ honR _ _ hslen]
    rfl
  show decide (getCell
      (⟨(stripColsDF odpc0).cols ++ ["odpc_normalized"],
        odpc0.rows.map (fun s => s ++ [PdVal.str (refKeyCell co odpc0 s)])⟩ : DataFrame)
      (s ++ [PdVal.str (refKeyCell co odpc0 s)]) "odpc_normalized" =
      getCell dfL l "provider_normalized") = (refKeyCell co odpc0 s == x)
  rw [hcell, hx]
  by_cases h : refKeyCell co odpc0 s = x
  · rw [h]
    simp
  · simp [h]

theorem mergedDF_G (co : CaseOption) (df0 odpc0 : DataFrame)
    (hwfU : ∀ r ∈ df0.rows, r.length = df0.cols.length)
    (hwfR : ∀ s ∈ odpc0.rows, s.length = odpc0.cols.length)
    (hpnU : "provider_normalized" ∉ (stripColsDF df0).cols)
    (honU : "odpc_normalized" ∉ (stripColsDF df0).cols)
    (hpnR : "provider_normalized" ∉ (stripColsDF odpc0).cols)
    (honR : "odpc_normalized" ∉ (stripColsDF odpc0).cols)
    (hdisj : ∀ c ∈ (stripColsDF df0).cols, c ∉ (stripColsDF odpc0).cols) :
    mergedDF co df0 odpc0 =
      ⟨((stripColsDF df0).cols ++ ["provider_normalized"]) ++
        ((stripColsDF odpc0).cols ++ ["odpc_normalized"]),
        df0.rows.flatMap (fun r =>
          if (odpc0.rows.filter (fun s =>
              refKeyCell co odpc0 s == userKeyCell co df0 r)).isEmpty then
            [(r ++ [PdVal.str (userKeyCell co df0 r)]) ++
              List.replicate
                ((stripColsDF odpc0).cols ++ ["odpc_normalized"]).length PdVal.na]
          else
            (odpc0.rows.filter (fun s =>
              refKeyCell co odpc0 s == userKeyCell co df0 r)).map
              (fun s => (r ++ [PdVal.str (userKeyCell co df0 r)]) ++
                (s ++ [PdVal.str (refKeyCell co odpc0 s)])))⟩ := by
  unfold mergedDF
  rw [userNormalized_user co df0 hpnU, refNormalized_user co odpc0 honR]
  unfold leftMerge
  dsimp only
  congr 1
  · rw [List.map_append, List.map_append]
    have h1 : (stripColsDF df0).cols.map (fun c =>
        if ((stripColsDF odpc0).cols ++ ["odpc_normalized"]).contains c
          then c ++ "_x" else c) = (stripColsDF df0).cols := by
      have hpt : ∀ c ∈ (stripColsDF df0).cols,
          (if ((stripColsDF odpc0).cols ++ ["odpc_normalized"]).contains c
            then c ++ "_x" else c) = c := by
        intro c hc
        have hcn : ((stripColsDF odpc0).cols ++ ["odpc_normalized"]).contains c
            = false := by
          apply contains_eq_false_of_not_mem
          intro hmem
          rcases List.mem_append.mp hmem with hA | hB
          · exact hdisj c hc hA
          · exact honU (List.mem_singleton.mp hB ▸ hc)
        rw [hcn]
        simp
      exact (List.map_congr_left hpt).trans (List.map_id _)
    have h2 : (["provider_normalized"] : List String).map (fun c =>
        if ((stripColsDF odpc0).cols ++ ["odpc_normalized"]).contains c
          then c ++ "_x" else c) = ["provider_normalized"] := by
      have hcn : ((stripColsDF odpc0).cols ++
          ["odpc_normalized"]).contains "provider_normalized" = false := by
        apply contains_eq_false_of_not_mem
        intro hmem
        rcases List.mem_append.mp hmem with hA | hB
        · exact hpnR hA
        · exact absurd hB (by decide)
      simp only [List.map_cons, List.map_nil, hcn]
      simp
    have h3 : (stripColsDF odpc0).cols.map (fun c =>
        if ((stripColsDF df0).cols ++ ["provider_normalized"]).contains c
          then c ++ "_y" else c) = (stripColsDF odpc0).cols := by
      have hpt : ∀ c ∈ (stripColsDF odpc0).cols,
          (if ((stripColsDF df0).cols ++ ["provider_normalized"]).contains c
            then c ++ "_y" else c) = c := by
        intro c hc
        have hcn : ((stripColsDF df0).cols ++ ["provider_normalized"]).contains c
            = false := by
          apply contains_eq_false_of_not_mem
          intro hmem
          rcases List.mem_append.mp hmem with hA | hB
          · exact hdisj c hA hc
          · exact hpnR (List.mem_singleton.mp hB ▸ hc)
        rw [hcn]
        simp
      exact (List.map_congr_left hpt).trans (List.map_id _)
    have h4 : (["odpc_normalized"] : List String).map (fun c =>
        if ((stripColsDF df0).cols ++ ["provider_normalized"]).contains c
          then c ++ "_y" else c) = ["odpc_normalized"] := by
      have hcn : ((stripColsDF df0).cols ++
          ["provider_normalized"]).contains "odpc_normalized" = false := by
        apply contains_eq_false_of_not_mem
        intro hmem
        rcases List.mem_append.mp hmem with hA | hB
        · exact honU hA
        · exact absurd hB (by decide)
      simp only [List.map_cons, List.map_nil, hcn]
      simp
    rw [h1, h2, h3, h4]
  · rw [List.flatMap_map]
    apply flatMap_congr_left
    intro r hr
    have hrlen : r.length = ((stripColsDF df0).cols).length := by
      rw [hwfU r hr]
      show df0.cols.length = (df0.cols.map pyStrip).length
      rw [List.length_map]
    have hkey : getCell
        (⟨(stripColsDF df0).cols ++ ["provider_normalized"],
          df0.rows.map (fun r => r ++ [PdVal.str (userKeyCell co df0 r)])⟩ : DataFrame)
        (r ++ [PdVal.str (userKeyCell co df0 r)]) "provider_normalized" =
        some (PdVal.str (userKeyCell co df0 r)) := by
      rw [getCell_eq_lookupRow]
      show lookupRow ((stripColsDF df0).cols ++ ["provider_normalized"]) _ _ = _
      rw [lookupRow_append _ _ _ hpnU _ _ hrlen]
      rfl
    rw [matchesOf_G co _ odpc0 _ _ hkey hwfR honR]
    cases hE : odpc0.rows.filter (fun s =>
        refKeyCell co odpc0 s == userKeyCell co df0 r) with
    | nil => rfl
    | cons a as =>
      show List.map (fun m => (r ++ [PdVal.str (userKeyCell co df0 r)]) ++ m)
        (List.map (fun s => s ++ [PdVal.str (refKeyCell co odpc0 s)]) (a :: as)) = _
      rw [List.map_map]
      simp only [List.isEmpty_cons, Bool.false_eq_true, if_false]
      apply List.map_congr_left
      intro s _
      rfl

theorem matchedDF_G (co : CaseOption) (df0 odpc0 : DataFrame)
    (hwfU : ∀ r ∈ df0.rows, r.length = df0.cols.length)
    (hwfR : ∀ s ∈ odpc0.rows, s.length = odpc0.cols.length)
    (hNAME : "NAME" ∈ (stripColsDF odpc0).cols)
    (hpnU : "provider_normalized" ∉ (stripColsDF df0).cols)
    (honU : "odpc_normalized" ∉ (stripColsDF df0).cols)
    (hmnU : "Matched Name" ∉ (stripColsDF df0).cols)
    (hpnR : "provider_normalized" ∉ (stripColsDF odpc0).cols)
    (honR : "odpc_normalized" ∉ (stripColsDF odpc0).cols)
    (hmnR : "Matched Name" ∉ (stripColsDF odpc0).cols)
    (hdisj : ∀ c ∈ (stripColsDF df0).cols, c ∉ (stripColsDF odpc0).cols) :
    matchedDF co df0 odpc0 =
      ⟨mergedColsG df0 odpc0, df0.rows.flatMap (matchedRowsG co df0 odpc0)⟩ := by
  unfold matchedDF
  rw [mergedDF_G co df0 odpc0 hwfU hwfR hpnU honU hpnR honR hdisj]
  have hno : (((stripColsDF df0).cols ++ ["provider_normalized"]) ++
      ((stripColsDF odpc0).cols ++ ["odpc_normalized"])).findIdx?
      (fun k => k == "Matched Name") = none := by
    apply findIdx?_eq_none
    intro x hx
    apply beq_eq_false_iff_ne.mpr
    intro he
    rcases List.mem_append.mp hx with hA | hB
    · rcases List.mem_append.mp hA with hA1 | hA2
      · exact hmnU (he ▸ hA1)
      · exact absurd (he ▸ hA2) (by decide)
    · rcases List.mem_append.mp hB with hB1 | hB2
      · exact hmnR (he ▸ hB1)
      · exact absurd (he ▸ hB2) (by decide)
  rw [setCol_of_findIdx?_none _ _ _ hno]
  simp only [getCell_eq_lookupRow]
  congr 1
  rw [List.map_flatMap]
  apply flatMap_congr_left
  intro r hr
  have hrlen : r.length = ((stripColsDF df0).cols).length := by
    rw [hwfU r hr]
    show df0.cols.length = (df0.cols.map pyStrip).length
    rw [List.length_map]
  have hrowlen : (r ++ [PdVal.str (userKeyCell co df0 r)]).length =
      ((stripColsDF df0).cols ++ ["provider_normalized"]).length := by
    simp [hrlen]
  have hnameVal : ∀ tail : List PdVal,
      lookupRow (((stripColsDF df0).cols ++ ["provider_normalized"]) ++
        ((stripColsDF odpc0).cols ++ ["odpc_normalized"]))
        ((r ++ [PdVal.str (userKeyCell co df0 r)]) ++ tail) "NAME" =
      lookupRow ((stripColsDF odpc0).cols ++ ["odpc_normalized"]) tail "NAME" := by
    intro tail
    have hNL : "NAME" ∉ (stripColsDF df0).cols ++ ["provider_normalized"] := by
      intro hmem
      rcases List.mem_append.mp hmem with hA | hB
      · exact hdisj "NAME" hA hNAME
      · exact absurd hB (by decide)
    exact lookupRow_append _ _ _ hNL _ _ hrowlen
  unfold matchedRowsG
  cases hE : odpc0.rows.filter (fun s =>
      refKeyCell co odpc0 s == userKeyCell co df0 r) with
  | nil =>
    have hrep : lookupRow ((stripColsDF odpc0).cols ++ ["odpc_normalized"])
        (List.replicate
          ((stripColsDF odpc0).cols ++ ["odpc_normalized"]).length PdVal.na)
        "NAME" = some PdVal.na := by
      obtain ⟨i, hfi, hlt, _⟩ := findIdx?_eq_of_mem "NAME"
        ((stripColsDF odpc0).cols ++ ["odpc_normalized"])
        (List.mem_append_left _ hNAME)
      unfold lookupRow
      rw [hfi]
      exact get?_replicate_of_lt PdVal.na _ i hlt
    show [((r ++ [PdVal.str (userKeyCell co df0 r)]) ++
        List.replicate
          ((stripColsDF odpc0).cols ++ ["odpc_normalized"]).length PdVal.na) ++
      [(lookupRow (((stripColsDF df0).cols ++ ["provider_normalized"]) ++
          ((stripColsDF odpc0).cols ++ ["odpc_normalized"]))
        ((r ++ [PdVal.str (userKeyCell co df0 r)]) ++
          List.replicate
            ((stripColsDF odpc0).cols ++ ["odpc_normalized"]).length PdVal.na)
        "NAME").getD PdVal.na]] = _
    rw [hnameVal]
    rw [hrep]
    rfl
  | cons a as =>
    show List.map (fun row => row ++
        [(lookupRow (((stripColsDF df0).cols ++ ["provider_normalized"]) ++
          ((stripColsDF odpc0).cols ++ ["odpc_normalized"])) row "NAME").getD PdVal.na])
      (List.map (fun s => (r ++ [PdVal.str (userKeyCell co df0 r)]) ++
        (s ++ [PdVal.str (refKeyCell co odpc0 s)])) (a :: as)) = _
    rw [List.map_map]
    simp only [List.isEmpty_cons, Bool.false_eq_true, if_false]
    apply List.map_congr_left
    intro s hs
    have hsmem : s ∈ odpc0.rows := by
      have hsf : s ∈ odpc0.rows.filter (fun s =>
          refKeyCell co odpc0 s == userKeyCell co df0 r) := by
        rw [hE]
        exact hs
      exact (List.mem_filter.mp hsf).1
    have hslen : s.length = (stripColsDF odpc0).cols.length := by
      rw [hwfR s hsmem]
      show odpc0.cols.length = (odpc0.cols.map pyStrip).length
      rw [List.length_map]
    show ((r ++ [PdVal.str (userKeyCell co df0 r)]) ++
        (s ++ [PdVal.str (refKeyCell co odpc0 s)])) ++
      [(lookupRow (((stripColsDF df0).cols ++ ["provider_normalized"]) ++
          ((stripColsDF odpc0).cols ++ ["odpc_normalized"]))
        ((r ++ [PdVal.str (userKeyCell co df0 r)]) ++
          (s ++ [PdVal.str (refKeyCell co odpc0 s)])) "NAME").getD PdVal.na] = _
    rw [hnameVal]
    rw [lookupRow_append_left _ _ _ hNAME _ _ hslen]
    rfl

theorem runChecker_G (co : CaseOption) (df0 : DataFrame) (fetch : FetchOutcome)
    (odpc0 : DataFrame) (hfetch : scrape_odpc_data fetch = odpc0)
    (hwfU : ∀ r ∈ df0.rows, r.length = df0.cols.length)
    (hwfR : ∀ s ∈ odpc0.rows, s.length = odpc0.cols.length)
    (hPN : "Provider Name" ∈ (stripColsDF df0).cols)
    (hNE : odpc0.isEmpty = false)
    (hNAME : "NAME" ∈ (stripColsDF odpc0).cols)
    (hpnU : "provider_normalized" ∉ (stripColsDF df0).cols)
    (honU : "odpc_normalized" ∉ (stripColsDF df0).cols)
    (hmnU : "Matched Name" ∉ (stripColsDF df0).cols)
    (hpnR : "provider_normalized" ∉ (stripColsDF odpc0).cols)
    (honR : "odpc_normalized" ∉ (stripColsDF odpc0).cols)
    (hmnR : "Matched Name" ∉ (stripColsDF odpc0).cols)
    (hdisj : ∀ c ∈ (stripColsDF df0).cols, c ∉ (stripColsDF odpc0).cols) :
    runChecker co df0 fetch =
      AppResult.success ⟨availG df0 odpc0,
        df0.rows.flatMap (projectedRowsG co df0 odpc0)⟩ := by
  unfold runChecker
  rw [hfetch, if_pos hPN, hNE, if_neg Bool.false_ne_true, if_pos hNAME]
  rw [matchedDF_G co df0 odpc0 hwfU hwfR hNAME hpnU honU hmnU hpnR honR hmnR hdisj]
  congr 1
  unfold projectDF
  simp only [getCell_eq_lookupRow]
  congr 1
  rw [List.map_flatMap]
  apply flatMap_congr_left
  intro r hr
  unfold projectedRowsG
  rfl

theorem matchedName_mem_availG (df0 odpc0 : DataFrame) :
    "Matched Name" ∈ availG df0 odpc0 := by
  unfold availG
  rw [List.mem_filter]
  refine ⟨by decide, ?_⟩
  apply contains_eq_true_of_mem
  unfold mergedColsG
  exact List.mem_append_right _ (by decide)

theorem lookup_matchedName_projG (df0 odpc0 : DataFrame) (raw : List PdVal)
    (hrawlen : raw.length = (((stripColsDF df0).cols ++ ["provider_normalized"]) ++
      ((stripColsDF odpc0).cols ++ ["odpc_normalized"])).length)
    (hmnU : "Matched Name" ∉ (stripColsDF df0).cols)
    (hmnR : "Matched Name" ∉ (stripColsDF odpc0).cols) (w : PdVal) :
    lookupRow (availG df0 odpc0)
      ((availG df0 odpc0).map (fun c =>
        (lookupRow (mergedColsG df0 odpc0) (raw ++ [w]) c).getD PdVal.na))
      "Matched Name" = some w := by
  rw [lookupRow_map_self _ _ _ (matchedName_mem_availG df0 odpc0)]
  congr 1
  have hnot : "Matched Name" ∉ ((stripColsDF df0).cols ++ ["provider_normalized"]) ++
      ((stripColsDF odpc0).cols ++ ["odpc_normalized"]) := by
    intro hmem
    rcases List.mem_append.mp hmem with hA | hB
    · rcases List.mem_append.mp hA with hA1 | hA2
      · exact hmnU hA1
      · exact absurd hA2 (by decide)
    · rcases List.mem_append.mp hB with hB1 | hB2
      · exact hmnR hB1
      · exact absurd hB2 (by decide)
  unfold mergedColsG
  rw [lookupRow_append _ _ _ hnot _ _ hrawlen]
  rfl

/-- C2 (amended): for every user dataset and every scraped reference frame
(arbitrary columns and rows, under the stated row-width and no-collision
side conditions; in particular the uploaded file must not itself carry a
NAME column, or pd.merge suffixes the colliding NAME columns and every
Matched Name becomes the missing value, as the counterexample shows), every
user row whose normalized provider name matches at least one reference
row's normalized NAME yields one output row per matching reference row, in
original scrape order, each attaching that reference row's NAME cell as its
Matched Name; exactly one reference row is attached only when exactly one
matches, so duplicate matching reference names yield multiple output rows,
not only the first match. -/
theorem c2_first_match_wins (co : CaseOption) (df0 : DataFrame) (fetch : FetchOutcome)
    (odpc0 : DataFrame) (hfetch : scrape_odpc_data fetch = odpc0)
    (hwfU : ∀ r ∈ df0.rows, r.length = df0.cols.length)
    (hwfR : ∀ s ∈ odpc0.rows, s.length = odpc0.cols.length)
    (hPN : "Provider Name" ∈ (stripColsDF df0).cols)
    (hNE : odpc0.isEmpty = false)
    (hNAME : "NAME" ∈ (stripColsDF odpc0).cols)
    (hpnU : "provider_normalized" ∉ (stripColsDF df0).cols)
    (honU : "odpc_normalized" ∉ (stripColsDF df0).cols)
    (hmnU : "Matched Name" ∉ (stripColsDF df0).cols)
    (hpnR : "provider_normalized" ∉ (stripColsDF odpc0).cols)
    (honR : "odpc_normalized" ∉ (stripColsDF odpc0).cols)
    (hmnR : "Matched Name" ∉ (stripColsDF odpc0).cols)
    (hdisj : ∀ c ∈ (stripColsDF df0).cols, c ∉ (stripColsDF odpc0).cols)
    (r : List PdVal) (hr : r ∈ df0.rows)
    (hm : odpc0.rows.filter (fun s =>
      refKeyCell co odpc0 s == userKeyCell co df0 r) ≠ []) :
    runChecker co df0 fetch =
      AppResult.success ⟨availG df0 odpc0,
        df0.rows.flatMap (projectedRowsG co df0 odpc0)⟩ ∧
    projectedRowsG co df0 odpc0 r =
      (odpc0.rows.filter (fun s => refKeyCell co odpc0 s == userKeyCell co df0 r)).map
        (fun s => (availG df0 odpc0).map (fun c =>
          (lookupRow (mergedColsG df0 odpc0)
            (((r ++ [PdVal.str (userKeyCell co df0 r)]) ++
              (s ++ [PdVal.str (refKeyCell co odpc0 s)])) ++
              [(getCell (stripColsDF odpc0) s "NAME").getD PdVal.na]) c).getD PdVal.na)) ∧
    ∀ s ∈ odpc0.rows.filter (fun s => refKeyCell co odpc0 s == userKeyCell co df0 r),
      lookupRow (availG df0 odpc0)
        ((availG df0 odpc0).map (fun c =>
          (lookupRow (mergedColsG df0 odpc0)
            (((r ++ [PdVal.str (userKeyCell co df0 r)]) ++
              (s ++ [PdVal.str (refKeyCell co odpc0 s)])) ++
              [(getCell (stripColsDF odpc0) s "NAME").getD PdVal.na]) c).getD PdVal.na))
        "Matched Name" = some ((getCell (stripColsDF odpc0) s "NAME").getD PdVal.na) := by
  have hrlen : r.length = (stripColsDF df0).cols.length := by
    rw [hwfU r hr]
    show df0.cols.length = (df0.cols.map pyStrip).length
    rw [List.length_map]
  refine ⟨runChecker_G co df0 fetch odpc0 hfetch hwfU hwfR hPN hNE hNAME
    hpnU honU hmnU hpnR honR hmnR hdisj, ?_, ?_⟩
  · unfold projectedRowsG matchedRowsG
    cases hE : odpc0.rows.filter (fun s =>
        refKeyCell co odpc0 s == userKeyCell co df0 r) with
    | nil => exact absurd hE hm
    | cons a as =>
      simp only [List.isEmpty_cons, Bool.false_eq_true, if_false]
      rw [List.map_map]
      rfl
  · intro s hs
    have hsmem : s ∈ odpc0.rows := (List.mem_filter.mp hs).1
    have hslen : s.length = (stripColsDF odpc0).cols.length := by
      rw [hwfR s hsmem]
      show odpc0.cols.length = (odpc0.cols.map pyStrip).length
      rw [List.length_map]
    exact lookup_matchedName_projG df0 odpc0
      ((r ++ [PdVal.str (userKeyCell co df0 r)]) ++
        (s ++ [PdVal.str (refKeyCell co odpc0 s)]))
      (by simp [hrlen, hslen]) hmnU hmnR
      ((getCell (stripColsDF odpc0) s "NAME").getD PdVal.na)

/-- C2 witness: a one-column user dataset with one row "w" against a scraped
two-column reference table (NAME, COUNTY) with the single matching row
("w", "Nairobi"). -/
theorem c2_first_match_wins_witness :
    runChecker CaseOption.lowercase (userDfOf ["w"])
      (FetchOutcome.page (some ⟨["NAME", "COUNTY"], [["w", "Nairobi"]]⟩)) =
      AppResult.success ⟨availG (userDfOf ["w"])
          (⟨["NAME", "COUNTY"],
            [[PdVal.str "w", PdVal.str "Nairobi"]]⟩ : DataFrame),
        (userDfOf ["w"]).rows.flatMap
          (projectedRowsG CaseOption.lowercase (userDfOf ["w"])
            (⟨["NAME", "COUNTY"],
              [[PdVal.str "w", PdVal.str "Nairobi"]]⟩ : DataFrame))⟩ ∧
    projectedRowsG CaseOption.lowercase (userDfOf ["w"])
      (⟨["NAME", "COUNTY"], [[PdVal.str "w", PdVal.str "Nairobi"]]⟩ : DataFrame)
      [PdVal.str "w"] =
      ((⟨["NAME", "COUNTY"],
          [[PdVal.str "w", PdVal.str "Nairobi"]]⟩ : DataFrame).rows.filter (fun s =>
        refKeyCell CaseOption.lowercase
          (⟨["NAME", "COUNTY"], [[PdVal.str "w", PdVal.str "Nairobi"]]⟩ : DataFrame) s ==
        userKeyCell CaseOption.lowercase (userDfOf ["w"]) [PdVal.str "w"])).map
        (fun s => (availG (userDfOf ["w"])
            (⟨["NAME", "COUNTY"],
              [[PdVal.str "w", PdVal.str "Nairobi"]]⟩ : DataFrame)).map (fun c =>
          (lookupRow (mergedColsG (userDfOf ["w"])
              (⟨["NAME", "COUNTY"],
                [[PdVal.str "w", PdVal.str "Nairobi"]]⟩ : DataFrame))
            ((([PdVal.str "w"] ++ [PdVal.str (userKeyCell CaseOption.lowercase
                (userDfOf ["w"]) [PdVal.str "w"])]) ++
              (s ++ [PdVal.str (refKeyCell CaseOption.lowercase
                (⟨["NAME", "COUNTY"],
                  [[PdVal.str "w", PdVal.str "Nairobi"]]⟩ : DataFrame) s)])) ++
              [(getCell (stripColsDF (⟨["NAME", "COUNTY"],
                  [[PdVal.str "w", PdVal.str "Nairobi"]]⟩ : DataFrame)) s
                "NAME").getD PdVal.na]) c).getD PdVal.na)) ∧
    ∀ s ∈ (⟨["NAME", "COUNTY"],
        [[PdVal.str "w", PdVal.str "Nairobi"]]⟩ : DataFrame).rows.filter (fun s =>
      refKeyCell CaseOption.lowercase
        (⟨["NAME", "COUNTY"], [[PdVal.str "w", PdVal.str "Nairobi"]]⟩ : DataFrame) s ==
      userKeyCell CaseOption.lowercase (userDfOf ["w"]) [PdVal.str "w"]),
      lookupRow (availG (userDfOf ["w"])
          (⟨["NAME", "COUNTY"], [[PdVal.str "w", PdVal.str "Nairobi"]]⟩ : DataFrame))
        ((availG (userDfOf ["w"])
            (⟨["NAME", "COUNTY"],
              [[PdVal.str "w", PdVal.str "Nairobi"]]⟩ : DataFrame)).map (fun c =>
          (lookupRow (mergedColsG (userDfOf ["w"])
              (⟨["NAME", "COUNTY"],
                [[PdVal.str "w", PdVal.str "Nairobi"]]⟩ : DataFrame))
            ((([PdVal.str "w"] ++ [PdVal.str (userKeyCell CaseOption.lowercase
                (userDfOf ["w"]) [PdVal.str "w"])]) ++
              (s ++ [PdVal.str (refKeyCell CaseOption.lowercase
                (⟨["NAME", "COUNTY"],
                  [[PdVal.str "w", PdVal.str "Nairobi"]]⟩ : DataFrame) s)])) ++
              [(getCell (stripColsDF (⟨["NAME", "COUNTY"],
                  [[PdVal.str "w", PdVal.str "Nairobi"]]⟩ : DataFrame)) s
                "NAME").getD PdVal.na]) c).getD PdVal.na))
        "Matched Name" =
        some ((getCell (stripColsDF (⟨["NAME", "COUNTY"],
            [[PdVal.str "w", PdVal.str "Nairobi"]]⟩ : DataFrame)) s
          "NAME").getD PdVal.na) :=
  c2_first_match_wins CaseOption.lowercase (userDfOf ["w"])
    (FetchOutcome.page (some ⟨["NAME", "COUNTY"], [["w", "Nairobi"]]⟩))
    (⟨["NAME", "COUNTY"], [[PdVal.str "w", PdVal.str "Nairobi"]]⟩ : DataFrame)
    (by decide) (by decide) (by decide) (by decide) (by decide) (by decide)
    (by decide) (by decide) (by decide) (by decide) (by decide) (by decide)
    (by decide) [PdVal.str "w"] (by decide) (by decide)

/-- C3 counterexample: the claim fails when the uploaded dataset itself
carries a NAME column. The user row "acme" (whose extra NAME cell is "x")
has exactly one scraped reference row with the same normalized name, and
that reference row's NAME cell is "acme"; but pd.merge suffixes the
colliding NAME columns to NAME_x and NAME_y, so merged_df.get("NAME", None)
of line 137 finds no NAME column and the output row's Matched Name is the
missing value, not the matched reference NAME. -/
theorem c3_unique_match_cex :
    (scrape_odpc_data (FetchOutcome.page (some (tableOf ["acme"])))).rows.filter
      (fun s => refKeyCell CaseOption.lowercase
          (scrape_odpc_data (FetchOutcome.page (some (tableOf ["acme"])))) s ==
        userKeyCell CaseOption.lowercase
          (⟨["Provider Name", "NAME"], [[PdVal.str "acme", PdVal.str "x"]]⟩ : DataFrame)
          [PdVal.str "acme", PdVal.str "x"]) = [[PdVal.str "acme"]] ∧
    getCell (stripColsDF (scrape_odpc_data (FetchOutcome.page (some (tableOf ["acme"])))))
      [PdVal.str "acme"] "NAME" = some (PdVal.str "acme") ∧
    runChecker CaseOption.lowercase
      (⟨["Provider Name", "NAME"], [[PdVal.str "acme", PdVal.str "x"]]⟩ : DataFrame)
      (FetchOutcome.page (some (tableOf ["acme"]))) =
      AppResult.success ⟨["Provider Name", "Matched Name"],
        [[PdVal.str "acme", PdVal.na]]⟩ ∧
    PdVal.na ≠ PdVal.str "acme" := by
  decide

/-- C3 (amended): join correctness on a unique match, for every user
dataset and every scraped reference frame (arbitrary columns and rows,
under the stated row-width and no-collision side conditions; in particular
the uploaded file must not itself carry a NAME column, or pd.merge suffixes
the colliding NAME columns and every Matched Name becomes the missing
value, as the counterexample shows). When exactly one reference row's
normalized NAME equals a user row's normalized provider name, the checker
succeeds, its output rows decompose per user row, that user row contributes
exactly one output row, and that row's Matched Name is the matching
reference row's NAME cell. -/
theorem c3_unique_match (co : CaseOption) (df0 : DataFrame) (fetch : FetchOutcome)
    (odpc0 : DataFrame) (hfetch : scrape_odpc_data fetch = odpc0)
    (hwfU : ∀ r ∈ df0.rows, r.length = df0.cols.length)
    (hwfR : ∀ s ∈ odpc0.rows, s.length = odpc0.cols.length)
    (hPN : "Provider Name" ∈ (stripColsDF df0).cols)
    (hNE : odpc0.isEmpty = false)
    (hNAME : "NAME" ∈ (stripColsDF odpc0).cols)
    (hpnU : "provider_normalized" ∉ (stripColsDF df0).cols)
    (honU : "odpc_normalized" ∉ (stripColsDF df0).cols)
    (hmnU : "Matched Name" ∉ (stripColsDF df0).cols)
    (hpnR : "provider_normalized" ∉ (stripColsDF odpc0).cols)
    (honR : "odpc_normalized" ∉ (stripColsDF odpc0).cols)
    (hmnR : "Matched Name" ∉ (stripColsDF odpc0).cols)
    (hdisj : ∀ c ∈ (stripColsDF df0).cols, c ∉ (stripColsDF odpc0).cols)
    (r : List PdVal) (hr : r ∈ df0.rows) (s0 : List PdVal)
    (huniq : odpc0.rows.filter (fun s =>
      refKeyCell co odpc0 s == userKeyCell co df0 r) = [s0]) :
    runChecker co df0 fetch =
      AppResult.success ⟨availG df0 odpc0,
        df0.rows.flatMap (projectedRowsG co df0 odpc0)⟩ ∧
    ∃ row, projectedRowsG co df0 odpc0 r = [row] ∧
      lookupRow (availG df0 odpc0) row "Matched Name" =
        some ((getCell (stripColsDF odpc0) s0 "NAME").getD PdVal.na) := by
  have hrlen : r.length = (stripColsDF df0).cols.length := by
    rw [hwfU r hr]
    show df0.cols.length = (df0.cols.map pyStrip).length
    rw [List.length_map]
  have hs0mem : s0 ∈ odpc0.rows := by
    have hsf : s0 ∈ odpc0.rows.filter (fun s =>
        refKeyCell co odpc0 s == userKeyCell co df0 r) := by
      rw [huniq]
      exact List.mem_cons_self s0 []
    exact (List.mem_filter.mp hsf).1
  have hs0len : s0.length = (stripColsDF odpc0).cols.length := by
    rw [hwfR s0 hs0mem]
    show odpc0.cols.length = (odpc0.cols.map pyStrip).length
    rw [List.length_map]
  refine ⟨runChecker_G co df0 fetch odpc0 hfetch hwfU hwfR hPN hNE hNAME
    hpnU honU hmnU hpnR honR hmnR hdisj, ?_⟩
  refine ⟨(availG df0 odpc0).map (fun c =>
    (lookupRow (mergedColsG df0 odpc0)
      (((r ++ [PdVal.str (userKeyCell co df0 r)]) ++
        (s0 ++ [PdVal.str (refKeyCell co odpc0 s0)])) ++
        [(getCell (stripColsDF odpc0) s0 "NAME").getD PdVal.na]) c).getD PdVal.na),
    ?_, ?_⟩
  · unfold projectedRowsG matchedRowsG
    rw [huniq]
    rfl
  · exact lookup_matchedName_projG df0 odpc0
      ((r ++ [PdVal.str (userKeyCell co df0 r)]) ++
        (s0 ++ [PdVal.str (refKeyCell co odpc0 s0)]))
      (by simp [hrlen, hs0len]) hmnU hmnR
      ((getCell (stripColsDF odpc0) s0 "NAME").getD PdVal.na)

/-- C3 witness: the spec's own example, against a scraped two-column
reference table (NAME, TYPE). The user row "Acme Data Ltd " under the
Lowercase policy uniquely matches the reference row ("ACME DATA LTD",
"Ltd"), and the output row's Matched Name is that row's NAME cell. -/
theorem c3_unique_match_witness :
    runChecker CaseOption.lowercase (userDfOf ["Acme Data Ltd "])
      (FetchOutcome.page (some ⟨["NAME", "TYPE"], [["ACME DATA LTD", "Ltd"]]⟩)) =
      AppResult.success ⟨availG (userDfOf ["Acme Data Ltd "])
          (⟨["NAME", "TYPE"],
            [[PdVal.str "ACME DATA LTD", PdVal.str "Ltd"]]⟩ : DataFrame),
        (userDfOf ["Acme Data Ltd "]).rows.flatMap
          (projectedRowsG CaseOption.lowercase (userDfOf ["Acme Data Ltd "])
            (⟨["NAME", "TYPE"],
              [[PdVal.str "ACME DATA LTD", PdVal.str "Ltd"]]⟩ : DataFrame))⟩ ∧
    ∃ row, projectedRowsG CaseOption.lowercase (userDfOf ["Acme Data Ltd "])
        (⟨["NAME", "TYPE"], [[PdVal.str "ACME DATA LTD", PdVal.str "Ltd"]]⟩ : DataFrame)
        [PdVal.str "Acme Data Ltd "] = [row] ∧
      lookupRow (availG (userDfOf ["Acme Data Ltd "])
          (⟨["NAME", "TYPE"], [[PdVal.str "ACME DATA LTD", PdVal.str "Ltd"]]⟩ : DataFrame))
        row "Matched Name" =
        some ((getCell (stripColsDF (⟨["NAME", "TYPE"],
            [[PdVal.str "ACME DATA LTD", PdVal.str "Ltd"]]⟩ : DataFrame))
          [PdVal.str "ACME DATA LTD", PdVal.str "Ltd"] "NAME").getD PdVal.na) :=
  c3_unique_match CaseOption.lowercase (userDfOf ["Acme Data Ltd "])
    (FetchOutcome.page (some ⟨["NAME", "TYPE"], [["ACME DATA LTD", "Ltd"]]⟩))
    (⟨["NAME", "TYPE"], [[PdVal.str "ACME DATA LTD", PdVal.str "Ltd"]]⟩ : DataFrame)
    (by decide) (by decide) (by decide) (by decide) (by decide) (by decide)
    (by decide) (by decide) (by decide) (by decide) (by decide) (by decide)
    (by decide) [PdVal.str "Acme Data Ltd "] (by decide)
    [PdVal.str "ACME DATA LTD", PdVal.str "Ltd"] (by decide)
